import Mathlib

/-!
Verification of the velcursor trail engine (`src/unnamed/part_000`).

The JavaScript source is shallowly embedded as follows.

* Coordinates, times and configuration knobs are exact rationals (`ℚ`);
  the floating-point `Math.hypot`-style square root is passed explicitly
  as a function parameter `sq : ℚ → ℚ` wherever the source calls it, so
  that theorems can either hold for every square-root oracle or assume
  the properties of the mathematical square root that the proof needs
  (`ratSqrt` below is a concrete computable floor-value oracle used for
  witnesses).  `Math.atan2`-ordering of points around a centroid is
  embedded as an exact comparison (`angLtb`), and the two `Math.acos`
  call sites of the hex-cell renderer are abstracted as function
  parameters in the same way as the square root.
* The critically damped spring (`CritDamped1D`) and the corner
  controller (`Corner.update`) use `Math.exp`; they are embedded over
  the real numbers with `Real.exp`.
* The under-damped oscillator and the adaptive-quality controller are
  pure rational arithmetic and are embedded over `ℚ` directly.
* Mutable buffers become explicit state (`TrailState`), and canvas
  drawing calls of the hex-cell renderer become the list of accepted
  cell polygons.
-/

namespace Velcursor

/-- `clamp(v, lo, hi) = Math.min(Math.max(v, lo), hi)` (SECTION 2). -/
def clamp {α : Type _} [LinearOrder α] (v lo hi : α) : α := min (max v lo) hi

/-- `lerp(a, b, t) = a + (b - a) * t` (SECTION 9). -/
def lerp {α : Type _} [Ring α] (a b t : α) : α := a + (b - a) * t

/-- A 2-D point (`{x, y}` objects of the source). -/
structure Point where
  x : ℚ
  y : ℚ
deriving DecidableEq

instance : Inhabited Point := ⟨⟨0, 0⟩⟩

/-- `lerpPoint(p0, p1, t)`. -/
def lerpPoint (p0 p1 : Point) (t : ℚ) : Point :=
  ⟨lerp p0.x p1.x t, lerp p0.y p1.y t⟩

/-- Squared Euclidean distance; the source computes `Math.hypot dx dy`,
which is `sq (dist2 a b)` for the square-root oracle `sq`. -/
def dist2 (a b : Point) : ℚ := (a.x - b.x) ^ 2 + (a.y - b.y) ^ 2

/-- `pointDist(a, b) = Math.hypot(a.x - b.x, a.y - b.y)`, with the
square root passed explicitly. -/
def pointDist (sq : ℚ → ℚ) (a b : Point) : ℚ := sq (dist2 a b)

/-- Fuel-bounded Newton iteration for the integer square root
(structurally recursive so that it evaluates by plain reduction). -/
def natSqrtIter : ℕ → ℕ → ℕ → ℕ
  | 0, _, guess => guess
  | fuel + 1, n, guess =>
    let next := (guess + n / guess) / 2
    if next < guess then natSqrtIter fuel n next else guess

/-- The integer square root (floor of the real square root), computed by
the Newton iteration starting from `n / 2`. -/
def natSqrt (n : ℕ) : ℕ :=
  if n ≤ 1 then n else natSqrtIter n n (n / 2)

/-- A concrete computable square-root oracle on `ℚ`: exact on perfect
squares of nonnegative rationals (`ratSqrt (q*q) = q` for `0 ≤ q`),
floor-valued otherwise, `0` on nonpositive input.  Used to instantiate
`sq` in witnesses. -/
def ratSqrt (x : ℚ) : ℚ :=
  if x ≤ 0 then 0 else (natSqrt (x.num.toNat * x.den) : ℚ) / (x.den : ℚ)

-- ====================================================================
-- SECTION 6: under-damped overshoot oscillator (`UnderDampedScalar`)
-- ====================================================================

/-- `CFG.overshoot.omega`. -/
def overshootOmega : ℚ := 16

/-- `CFG.overshoot.zeta`. -/
def overshootZeta : ℚ := 4 / 25

/-- State of `UnderDampedScalar` (its `omega`/`zeta` fields are the
constants above). -/
structure UnderDampedScalar where
  x : ℚ
  v : ℚ
deriving DecidableEq

/-- `kick(impulse) { this.v += impulse }`. -/
def UnderDampedScalar.kick (s : UnderDampedScalar) (impulse : ℚ) : UnderDampedScalar :=
  ⟨s.x, s.v + impulse⟩

/-- `step(dt)`: semi-implicit Euler step followed by the deadzone that
forces both components to exactly zero when both are small. -/
def UnderDampedScalar.step (s : UnderDampedScalar) (dt : ℚ) : UnderDampedScalar :=
  let w := overshootOmega
  let z := overshootZeta
  let a := -2 * z * w * s.v - w * w * s.x
  let v1 := s.v + a * dt
  let x1 := s.x + v1 * dt
  if |x1| < 1 / 10000 ∧ |v1| < 1 / 1000 then ⟨0, 0⟩ else ⟨x1, v1⟩

/-- `n` oscillator steps at a fixed `dt`. -/
def UnderDampedScalar.steps (s : UnderDampedScalar) (dt : ℚ) : ℕ → UnderDampedScalar
  | 0 => s
  | n + 1 => (s.steps dt n).step dt

/-- The oscillator state after 20 steps of the kicked run (C9). -/
def oscS20 : UnderDampedScalar := ⟨mkRat (-1001426070010155417314574196175141755474610253889677601038017) 10545093842449199812195959058414018727489747107028961181640625, mkRat (941614045233053207795117283671285522555225037931767411393307) 703006256163279987479730603894267915165983140468597412109375⟩

/-- The oscillator state after 40 steps of the kicked run (C9). -/
def oscS40 : UnderDampedScalar := ⟨mkRat (-5470619638230720791483479277582818786095503565279927924693155325255162941225753015055589189317539468142097605565633580642) 111199004146060029311032109199608459227886565086617083012999013373974503503718706289016271426817183964885771274566650390625, mkRat (-1082518538937264040425997411482330057410040466834714363616982423009266644936676304112916458307857342842194161967757464693) 7413266943070668620735473946640563948525771005774472200866600891598300233581247085934418095121145597659051418304443359375⟩

/-- The oscillator state after 60 steps of the kicked run (C9). -/
def oscS60 : UnderDampedScalar := ⟨mkRat (-11179237315958563764091690055693269704453939732100520621788543220482006490725000169682677019119676924838092654285985282881635060766399551798008559212419895047226992340844308065623267) 1172603933907100655428892035241331313143443409640673276793431636742020041825651793964531594692796822101410185302641390772033139491825149284599284771335447885576286353170871734619140625, mkRat (-23502197741778081814044651814539298388104926830676530552680256241870248107230418138995768259090106677490928146096116389528629329578731579050909665323802784152129125541235405774322693) 78173595593806710361926135682755420876229560642711551786228775782801336121710119597635439646186454806760679020176092718135542632788343285639952318089029859038419090211391448974609375⟩

/-- The oscillator state after 80 steps of the kicked run (C9). -/
def oscS80 : UnderDampedScalar := ⟨mkRat (41116456450467611970020053795772129374923347271814178016371882079501071881991835219699314101853538934425424191887715014850566098605314744671643839633432046220025946573200889424476531515662746049946412990245105163230214094025629888148102834108) 12365218523075475588528685672370954588224119765324006467008652892528786392104545087871377915728687367138070595191549454475977848106404058816191540863354350877428052617840897865941433818317796973523491608527857810173600228154100477695465087890625, mkRat (-108167928504840771635814246786508911182694482274783940624119832666946985841311679347044820833774049626291844830847415490065324861999628618243764936112646346624720451361196286131100832184374118765825876813557599975829531300178131998834639180693) 824347901538365039235245711491396972548274651021600431133910192835252426140303005858091861048579157809204706346103296965065189873760270587746102724223623391828536841189393191062762254554519798234899440568523854011573348543606698513031005859375⟩

/-- The oscillator state after 100 steps of the kicked run (C9). -/
def oscS100 : UnderDampedScalar := ⟨mkRat (433431233395858644281769164248915408188538545710455707225941962302545011261091652320420101580561535399480781803844185875772467587911413846113150125014621130135431025112102883177280297604699635112974975473844758816789700862932331685289332305756144436977077934214388489504422279651641212738853855871791483) 130392389708221986368142666999115711225866372826354747127001343530353009079570100573448875341889465281409043472831973824707044958815578103406592298263025250747478225608146161618867954456811817440137712496104137206551577307426458837820173328380675417508024940471873277803016577536254771985113620758056640625, mkRat (-151901004426003335779682193531032186972062889396615631408564393728473354236079489419823156507348008144079381991203518071396501548832485241764494481243733331040813709744615175043315331793965239127292648420052477060084717894201507989794156371281317846404956893828504528324371503935627459196090542352038693) 8692825980548132424542844466607714081724424855090316475133422902023533938638006704896591689459297685427269564855464921647136330587705206893772819884201683383165215040543077441257863630454121162675847499740275813770105153828430589188011555225378361167201662698124885186867771835750318132340908050537109375⟩

/-- The oscillator state after 120 steps of the kicked run (C9). -/
def oscS120 : UnderDampedScalar := ⟨mkRat (1599738891188962283842716702906240597228731563614028653300822282506169845730105054520714975286950356360647716819935719767472087149950118712931314088221542628645748250196018133350569832379303656079242740770326692672897213140326340724448844765324811227042881033934829251500359938618137525313049475601558374736710810986119724977815749613262617187045029082868241248858) 1374999985814408082188424803792244921263450482957473835017795404101068992300227910294799161100896670684670219768422729576544881498596946838593807013598028287243937137382167798598157316086812884478878119739547634800525323403217742148521401273804155372432024733211848569530358155984886567241298096602150905611950833514503818159370462925750189242535270750522613525390625, mkRat (1190679592532385243881827997597048607008888526832944542567506983128534857378873016228655607256665690763353106581314635802795135069581460049844729073797353707958965982437997885997127681980325318154147866159953704844076712230466298402046720764928909688680635022334155765778087787336525023022749680039053897439880480407565155209513726488529311350745167923183087103307) 91666665720960538812561653586149661417563365530498255667853026940071266153348527352986610740059778045644681317894848638436325433239796455906253800906535219149595809158811186573210487739120858965258541315969842320035021560214516143234760084920277024828801648880789904635357210398992437816086539773476727040796722234300254543958030861716679282835684716701507568359375⟩

/-- The oscillator state after 140 steps of the kicked run (C9). -/
def oscS140 : UnderDampedScalar := ⟨mkRat (642957844227502619894606570974849227280918542601102425499624812166585150518321906775084268627595891232561448004146758753766631409499981781107783299111972406570837814764208382028137532503232464870174119919888004468580105298920566204826387555323496215181427863352064310087199728940294356759782161747410332282478775991821010975395793767633002014652660046703211638193110289907150516083597289214404823354077282470373238211206233) 14499503883779251757757466762099461652049131713914875220329671815463469119573960075677381410823972521837229523986262140294069456990487701632975925935329657311158364157186069553451810659048901708811236608472320511431345699369311863172306223567680172163236021475191850614394175666086344758234396920701787376910210761261125331381410940418334857409060575487247404646231344369906821696855126792302659310962553718127310276031494140625, mkRat (9341866418037225787230250345136450135530658138626454086023603647431749811650097097668978748557007721935998514038585881798001637011290293636619778522736369675845647094134807748365769101385823121556968432010282148879757704348688838586926233661516635083977385286307708721389780983840972494296105075872687422390318813821381059593222911273786031549056864795383421320197192694482728962590152811690633885492741593224548053678245307) 966633592251950117183831117473297443469942114260991681355311454364231274638264005045158760721598168122481968265750809352937963799365846775531728395688643820743890943812404636896787377269926780587415773898154700762089713291287457544820414904512011477549068098346123374292945044405756317215626461380119158460680717417408355425427396027888990493937371699149826976415422957993788113123675119486843954064170247875154018402099609375⟩

/-- The oscillator state after 160 steps of the kicked run (C9). -/
def oscS160 : UnderDampedScalar := ⟨mkRat (-26369451205380106377539497550132515206198411791292071062955766427338359290955831892208313006100496861077499166135649403949898464192614670490791116958407453444982221887693677835199682025872308965691777107335613180353640668848105666405809846551271444361440987335567790249897441183078203567268271533784717224955752033914855662497707662828248798906244201393502774486896463761135578394199739601200138195877335296500005886368320147633871386787079471174446419383192883711874232708981218336392) 152898629123408845819624157350155825471259701638614990690645980489177652536978653314581226896230645548004344216320239513025799012109808685485403230588332110225242132485493988211663385308562951207452599647817440583740767046367117615981378910172850209611602556684103313036898857442753879871959973543441535450447828518963811019003991348674607966086455077416699683019852686315464816015703211428035254730690763358581281619731396082858147059419055350235928936175611170256161130964756011962890625, mkRat (28792095773897583427247111495408957151952193618454370335063807450181048512134980697807555467664616940157252990131201047367607999660391815483658027578522333120605286147232358114463504270731443659103961472093280029092710358211424471299684170833573646234828684209442002029878973950136876216894070152924331242171604093023138910892570937674818688023268196026407235702205336281324475078648503596511402032604710261741876174264332752313148472758026993593863085147766006566150833361781421387307) 10193241941560589721308277156677055031417313442574332712709732032611843502465243554305415126415376369866956281088015967535053267473987245699026882039222140681682808832366265880777559020570863413830173309854496038916051136424474507732091927344856680640773503778940220869126590496183591991463998236229435696696521901264254067933599423244973864405763671827779978867990179087697654401046880761869016982046050890572085441315426405523876470627937023349061929078374078017077408730983734130859375⟩


-- ====================================================================
-- rafLoop (lines 2372-2396): adaptive quality controller
-- ====================================================================

/-- `CFG.performance` constants used by the quality update. -/
def targetFrameMs : ℚ := 167 / 10

def framePressureWindowMs : ℚ := 8

def emaAlpha : ℚ := 4 / 25

def distanceNormPx : ℚ := 120

def frameWeight : ℚ := 7 / 10

def distanceWeight : ℚ := 3 / 10

def qualityMin : ℚ := 19 / 50

def degradeRatePerSec : ℚ := 9 / 2

def recoverRatePerSec : ℚ := 8 / 5

/-- The controller's mutable state: `perfFrameEmaMs` and `perfQuality`
(`perfTargetQuality` is recomputed every tick). -/
structure PerfState where
  ema : ℚ
  q : ℚ
deriving DecidableEq

/-- Initial values: `perfFrameEmaMs = CFG.performance.targetFrameMs`,
`perfQuality = 1`. -/
def perfInit : PerfState := ⟨targetFrameMs, 1⟩

/-- The target quality computed by a tick from the updated EMA and the
motion distance (rafLoop lines 2374-2385). -/
def perfTarget (ema1 dist : ℚ) : ℚ :=
  let framePressure := clamp ((ema1 - targetFrameMs) / max (1 / 10000) framePressureWindowMs) 0 1
  let distancePressure := clamp (dist / max (1 / 10000) distanceNormPx) 0 1
  let hybridPressure := clamp (frameWeight * framePressure + distanceWeight * distancePressure) 0 1
  1 - hybridPressure * (1 - qualityMin)

/-- One quality tick (`CFG.performance.enabled` branch of rafLoop):
update the frame-time EMA, move the quality toward the target at the
degrade/recover rate, clamp into `[qualityMin, 1]`. -/
def perfTick (s : PerfState) (dtSec dist : ℚ) : PerfState :=
  let ema1 := lerp s.ema (dtSec * 1000) emaAlpha
  let target := perfTarget ema1 dist
  let q1 := if target < s.q
    then max target (s.q - degradeRatePerSec * dtSec)
    else min target (s.q + recoverRatePerSec * dtSec)
  ⟨ema1, clamp q1 qualityMin 1⟩

/-- A whole frame sequence: fold `perfTick` over `(dtSec, dist)` pairs. -/
def perfRun (s : PerfState) (frames : List (ℚ × ℚ)) : PerfState :=
  frames.foldl (fun st f => perfTick st f.1 f.2) s

-- ====================================================================
-- SECTION 9: polygon helpers
-- ====================================================================

/-- `rotatePolygon(pts, offset)[i] = pts[(i + offset) % n]`, which is
exactly `List.rotate`. -/
def rotatePolygon (pts : List Point) (off : ℕ) : List Point := pts.rotate off

/-- `polygonCenter(pts)`: vertex mean (denominator `Math.max(1, n)`). -/
def polygonCenter (pts : List Point) : Point :=
  let n : ℚ := (max 1 pts.length : ℕ)
  ⟨(pts.map Point.x).sum / n, (pts.map Point.y).sum / n⟩

/-- The edge pairs `(pts[i], pts[(i+1) % n])` of a closed polygon. -/
def edgePairs (pts : List Point) : List (Point × Point) := pts.zip (pts.rotate 1)

/-- `polygonSignedArea(pts)`: the shoelace sum over the closed edge
loop, halved; `0` for fewer than 3 vertices. -/
def polygonSignedArea (pts : List Point) : ℚ :=
  if pts.length < 3 then 0
  else ((edgePairs pts).map (fun pq => pq.1.x * pq.2.y - pq.2.x * pq.1.y)).sum / 2

/-- `Math.sign`. -/
def qsign (x : ℚ) : ℚ := if 0 < x then 1 else if x < 0 then -1 else 0

/-- The class of `Math.atan2(dy, dx)` inside `(-π, π]`, numbered so that
classes are ordered by angle: third quadrant, `-π/2` axis, fourth
quadrant, `0` axis (with the origin, whose `atan2` is `0`), first
quadrant, `π/2` axis, second quadrant, `π` axis. -/
def angClass (dx dy : ℚ) : ℕ :=
  if dy < 0 then (if dx < 0 then 0 else if 0 < dx then 2 else 1)
  else if 0 < dy then (if 0 < dx then 4 else if dx < 0 then 6 else 5)
  else (if dx < 0 then 7 else 3)

/-- Exact strict comparison of `Math.atan2`-angles around `c`: compare
the classes, then (inside an open quadrant) the cross product. Returns
`false` on exactly equal angles. -/
def angLtb (c p q : Point) : Bool :=
  let adx := p.x - c.x
  let ady := p.y - c.y
  let bdx := q.x - c.x
  let bdy := q.y - c.y
  let ca := angClass adx ady
  let cb := angClass bdx bdy
  if ca ≠ cb then decide (ca < cb)
  else if ca % 2 = 0 then decide (0 < adx * bdy - ady * bdx)
  else false

/-- The total sort key of `sortPolygonByAngle`'s comparator
`a.a - b.a || a.r2 - b.r2 || a.p.y - b.p.y || a.p.x - b.p.x`
as a boolean `≤`. -/
def angLeb (c p q : Point) : Bool :=
  if angLtb c p q then true
  else if angLtb c q p then false
  else
    let ar2 := dist2 p c
    let br2 := dist2 q c
    if ar2 < br2 then true
    else if br2 < ar2 then false
    else if p.y < q.y then true
    else if q.y < p.y then false
    else decide (p.x ≤ q.x)

/-- Insert into a sorted list (the standard insertion-sort step). -/
def insertSorted (le : Point → Point → Bool) (x : Point) : List Point → List Point
  | [] => [x]
  | y :: ys => if le x y then x :: y :: ys else y :: insertSorted le x ys

/-- Insertion sort with a boolean `≤`. -/
def sortByLe (le : Point → Point → Bool) (l : List Point) : List Point :=
  l.foldr (insertSorted le) []

/-- `sortPolygonByAngle(pts)`: sort by angle around the centroid with
the radius/y/x tie-breaks; identity-like for fewer than 3 points. -/
def sortPolygonByAngle (pts : List Point) : List Point :=
  if pts.length < 3 then pts
  else sortByLe (angLeb (polygonCenter pts)) pts

/-- `rotateToTopLeftStart(pts)`: rotate so the lexicographically
top-left vertex (min `y`, then min `x`, first on ties) comes first. -/
def rotateToTopLeftStart (pts : List Point) : List Point :=
  match pts with
  | [] => []
  | _ :: _ =>
    let best := (List.range pts.length).foldl
      (fun best i =>
        let pb := pts.getD best default
        let pi := pts.getD i default
        if pi.y < pb.y ∨ (pi.y = pb.y ∧ pi.x < pb.x) then i else best) 0
    rotatePolygon pts best

/-- The `eps` default of the segment tests (`1e-6`). -/
def geomEps : ℚ := 1 / 1000000

/-- `orient2(a, b, c)`. -/
def orient2 (a b c : Point) : ℚ :=
  (b.x - a.x) * (c.y - a.y) - (b.y - a.y) * (c.x - a.x)

/-- `onSegment(a, b, p, eps)`. -/
def onSegment (a b p : Point) (eps : ℚ) : Bool :=
  if |orient2 a b p| > eps then false
  else decide (p.x ≥ min a.x b.x - eps ∧ p.x ≤ max a.x b.x + eps ∧
    p.y ≥ min a.y b.y - eps ∧ p.y ≤ max a.y b.y + eps)

/-- `segmentsIntersect(a, b, c, d, eps)`. -/
def segmentsIntersect (a b c d : Point) (eps : ℚ) : Bool :=
  let o1 := orient2 a b c
  let o2 := orient2 a b d
  let o3 := orient2 c d a
  let o4 := orient2 c d b
  let properCross :=
    ((o1 > eps ∧ o2 < -eps) ∨ (o1 < -eps ∧ o2 > eps)) ∧
    ((o3 > eps ∧ o4 < -eps) ∨ (o3 < -eps ∧ o4 > eps))
  if properCross then true
  else if |o1| ≤ eps ∧ onSegment a b c eps then true
  else if |o2| ≤ eps ∧ onSegment a b d eps then true
  else if |o3| ≤ eps ∧ onSegment c d a eps then true
  else decide (|o4| ≤ eps) && onSegment c d b eps

/-- `isSelfIntersectingPolygon(pts)`: any pair of non-adjacent edges of
the closed loop intersects (inner loop starts at `j = i + 1`). -/
def isSelfIntersectingPolygon (pts : List Point) : Bool :=
  let n := pts.length
  if n < 4 then false
  else (List.range n).any fun i =>
    (List.range n).any fun j =>
      decide (i + 1 ≤ j) &&
      !(decide (j = i) || decide ((i + 1) % n = j) || decide ((j + 1) % n = i)) &&
      segmentsIntersect (pts.getD i default) (pts.getD ((i + 1) % n) default)
        (pts.getD j default) (pts.getD ((j + 1) % n) default) geomEps

/-- `isValidTrailPolygon(pts) = pts.length >= 3 && !selfIntersecting`. -/
def isValidTrailPolygon (pts : List Point) : Bool :=
  decide (3 ≤ pts.length) && !isSelfIntersectingPolygon pts

/-- `lerpPolygon(p0, p1, t)`: pointwise lerp over `min` length. -/
def lerpPolygon (p0 p1 : List Point) (t : ℚ) : List Point :=
  (p0.zip p1).map fun pq => lerpPoint pq.1 pq.2 t

/-- The score of a correspondence candidate in
`matchPolygonToReference`: total per-vertex displacement to `ref`. -/
def matchScore (sq : ℚ → ℚ) (cand ref : List Point) : ℚ :=
  ((cand.zip ref).map fun pq => pointDist sq pq.1 pq.2).sum

/-- The `best`/`bestScore` scan of `matchPolygonToReference`: keep the
first candidate with the strictly smallest score (`bestScore` starts at
`Infinity`, so the first candidate is always taken). -/
def pickBest (f : List Point → ℚ) (l : List (List Point)) : Option (List Point × ℚ) :=
  l.foldl
    (fun acc c =>
      match acc with
      | none => some (c, f c)
      | some (b, bs) => if f c < bs then some (c, f c) else some (b, bs))
    none

/-- `matchPolygonToReference(pts, refPts)`: order by angle, then search
both windings (filtered to the reference's area sign when nonzero) and
all rotations for the minimal-displacement correspondence. -/
def matchPolygonToReference (sq : ℚ → ℚ) (pts refPts : List Point) : List Point :=
  let n := min pts.length refPts.length
  if n < 3 then pts
  else
    let ref := refPts.take n
    let refSign := qsign (polygonSignedArea ref)
    let ordered := sortPolygonByAngle (pts.take n)
    let bases0 := [ordered, ordered.reverse]
    let bases :=
      if refSign ≠ 0 then
        let filtered := bases0.filter fun b => qsign (polygonSignedArea b) = refSign
        if filtered ≠ [] then filtered else bases0
      else bases0
    let candidates := bases.flatMap fun b => (List.range n).map fun off => rotatePolygon b off
    match pickBest (fun c => matchScore sq c ref) candidates with
    | some (b, _) => b
    | none => pts

/-- `canonicalizePolygon(pts, refPts)`. -/
def canonicalizePolygon (sq : ℚ → ℚ) (pts : List Point) (refPts : Option (List Point)) : List Point :=
  let n := pts.length
  if n < 3 then pts
  else
    let ordered := sortPolygonByAngle (pts.take n)
    match refPts with
    | some r => if r.length = n then matchPolygonToReference sq ordered r else rotateToTopLeftStart ordered
    | none => rotateToTopLeftStart ordered

/-- `clampPointStep(from, to, maxStep)`. -/
def clampPointStep (sq : ℚ → ℚ) (src dst : Point) (maxStep : ℚ) : Point :=
  if ¬(0 < maxStep) then dst
  else
    let dx := dst.x - src.x
    let dy := dst.y - src.y
    let d := sq (dx ^ 2 + dy ^ 2)
    if d ≤ maxStep ∨ d < geomEps then dst
    else
      let s := maxStep / d
      ⟨src.x + dx * s, src.y + dy * s⟩

/-- `maxCornerDelta(prevPts, currPts)`. -/
def maxCornerDelta (sq : ℚ → ℚ) (prevPts currPts : List Point) : ℚ :=
  ((prevPts.zip currPts).map fun pq => pointDist sq pq.1 pq.2).foldl max 0

/-- `avgCornerDelta(prevPts, currPts)`. -/
def avgCornerDelta (sq : ℚ → ℚ) (prevPts currPts : List Point) : ℚ :=
  let n := min prevPts.length currPts.length
  if n = 0 then 0
  else ((prevPts.zip currPts).map fun pq => pointDist sq pq.1 pq.2).sum / (n : ℚ)

/-- `perimeter(pts)`: sum of closed-loop edge lengths, `0` below 2
vertices. -/
def perimeter (sq : ℚ → ℚ) (pts : List Point) : ℚ :=
  if pts.length < 2 then 0
  else ((edgePairs pts).map fun pq => pointDist sq pq.1 pq.2).sum

/-- The index scan of `enforceLeadingAxisCorner`: first index with the
strictly smallest squared distance to the target point. -/
def leadIndex (pts : List Point) (tp : Point) : ℕ :=
  ((List.range pts.length).foldl
    (fun acc i =>
      let d2 := dist2 (pts.getD i default) tp
      match acc with
      | none => some (i, d2)
      | some (b, bd) => if d2 < bd then some (i, d2) else some (b, bd))
    none).elim 0 Prod.fst

/-- `enforceLeadingAxisCorner(pts, targetPoint)`: make the two edges at
the vertex nearest the target axis-aligned, preferring the right-angle
configuration that displaces the neighbours least; keep the input if
both candidates are invalid. -/
def enforceLeadingAxisCorner (sq : ℚ → ℚ) (pts : List Point) (tp : Point) : List Point :=
  let n := pts.length
  if n < 4 then pts
  else
    let leadIdx := leadIndex pts tp
    let prevIdx := (leadIdx + n - 1) % n
    let nextIdx := (leadIdx + 1) % n
    let lead := pts.getD leadIdx default
    let prev := pts.getD prevIdx default
    let next := pts.getD nextIdx default
    let candA := (pts.set prevIdx ⟨prev.x, lead.y⟩).set nextIdx ⟨lead.x, next.y⟩
    let candB := (pts.set prevIdx ⟨lead.x, prev.y⟩).set nextIdx ⟨next.x, lead.y⟩
    let scoreA := pointDist sq (candA.getD prevIdx default) prev + pointDist sq (candA.getD nextIdx default) next
    let scoreB := pointDist sq (candB.getD prevIdx default) prev + pointDist sq (candB.getD nextIdx default) next
    let first := if scoreA ≤ scoreB then candA else candB
    let second := if scoreA ≤ scoreB then candB else candA
    if isValidTrailPolygon first then first
    else if isValidTrailPolygon second then second
    else pts

-- ====================================================================
-- SECTION 9: trail sample storage (`pushTrailPolygon`, `pruneTrail`)
-- ====================================================================

/-- A trail sample `{ t, cx, cy, pts }`. -/
structure TrailSample where
  t : ℚ
  cx : ℚ
  cy : ℚ
  pts : List Point
deriving DecidableEq

/-- The module state: the `trail` array and the `lastPushed` reference. -/
structure TrailState where
  trail : List TrailSample
  lastPushed : Option TrailSample
deriving DecidableEq

/-- `trail = []; lastPushed = null`. -/
def trailInit : TrailState := ⟨[], none⟩

/-- The `CFG.trail` knobs read by the push pipeline, default-valued from
the source configuration. -/
structure TrailCfg where
  twistGuardEnabled : Bool := true
  temporalSmoothFactor : ℚ := 8 / 25
  smoothReleaseDistancePx : ℚ := 64
  cornerStepClampPx : ℚ := 8
  cornerStepSpeedScale : ℚ := 4
  minMovePx : ℚ := 2 / 25
  cornerInterpEpsilonPx : ℚ := 1 / 50
  adaptiveInterpStepPx : ℚ := 8 / 25
  interpStepPx : ℚ := 1 / 50
  maxInterpPerPush : ℚ := 4
  maxRects : ℕ := 30
  ttlMs : ℚ := 256

/-- The source's `CFG.trail` values. -/
def defaultCfg : TrailCfg := {}

/-- `if (trail.length > CFG.trail.maxRects) trail.splice(0, trail.length
- CFG.trail.maxRects)`: drop the oldest samples beyond the cap. -/
def capTrail (cfg : TrailCfg) (t : List TrailSample) : List TrailSample :=
  if cfg.maxRects < t.length then t.drop (t.length - cfg.maxRects) else t

/-- Lines 1646-1653 of `pushTrailPolygon`: canonicalize the incoming
polygon against the last pushed one (twist guard), then apply the
leading-axis correction toward the target point. -/
def pushStage1 (sq : ℚ → ℚ) (cfg : TrailCfg) (lastPts : Option (List Point))
    (poly : List Point) (tp : Option Point) : List Point :=
  let pts := if cfg.twistGuardEnabled then canonicalizePolygon sq poly lastPts else poly
  match tp with
  | some p => enforceLeadingAxisCorner sq pts p
  | none => pts

/-- Lines 1667-1692 of `pushTrailPolygon`: re-canonicalize against the
previous sample, blend by the distance-released temporal smoothing,
apply the speed-scaled per-vertex step clamp, canonicalize and correct
once more. -/
def pushStage2 (sq : ℚ → ℚ) (cfg : TrailCfg) (lp : TrailSample)
    (pts2 : List Point) (tp : Option Point) : List Point :=
  let center := polygonCenter pts2
  let pts3 := if cfg.twistGuardEnabled ∧ lp.pts.length = pts2.length
    then canonicalizePolygon sq pts2 (some lp.pts) else pts2
  let rawCenterDist := sq ((center.x - lp.cx) ^ 2 + (center.y - lp.cy) ^ 2)
  let smoothBase := clamp cfg.temporalSmoothFactor 0 (19 / 20)
  let releaseDist := max (1 / 10000) cfg.smoothReleaseDistancePx
  let release := clamp (rawCenterDist / releaseDist) 0 1
  let smooth := smoothBase * (1 - release)
  let pts4 := if 0 < smooth ∧ lp.pts.length = pts3.length
    then lerpPolygon pts3 lp.pts smooth else pts3
  let pts5 := if 0 < cfg.cornerStepClampPx ∧ lp.pts.length = pts4.length
    then
      let speedClamp := max 0 cfg.cornerStepSpeedScale * rawCenterDist
      let maxStep := cfg.cornerStepClampPx + speedClamp
      (List.range pts4.length).map fun i =>
        clampPointStep sq (lp.pts.getD i default) (pts4.getD i default) maxStep
    else pts4
  let pts6 := if cfg.twistGuardEnabled ∧ lp.pts.length = pts5.length
    then canonicalizePolygon sq pts5 (some lp.pts) else pts5
  match tp with
  | some p => enforceLeadingAxisCorner sq pts6 p
  | none => pts6

/-- Lines 1696-1703: the movement metric `max(centerDist, cornerMax,
cornerAvg, shapeDelta)`. -/
def interpMetricOf (sq : ℚ → ℚ) (lp : TrailSample) (pts : List Point) : ℚ :=
  let center := polygonCenter pts
  let centerDist := sq ((center.x - lp.cx) ^ 2 + (center.y - lp.cy) ^ 2)
  let cornerMax := maxCornerDelta sq lp.pts pts
  let cornerAvg := avgCornerDelta sq lp.pts pts
  let shapeDelta := |perimeter sq pts - perimeter sq lp.pts| * (7 / 20)
  max (max (max centerDist cornerMax) cornerAvg) shapeDelta

/-- `Math.max(CFG.trail.minMovePx, CFG.trail.cornerInterpEpsilonPx)`. -/
def moveThreshold (cfg : TrailCfg) : ℚ := max cfg.minMovePx cfg.cornerInterpEpsilonPx

/-- Lines 1705-1707: `Math.max(1e-4, adaptiveInterpStepPx ||
interpStepPx) / Math.max(perfQuality, 1e-4)`. -/
def adaptiveStepOf (cfg : TrailCfg) (perfQuality : ℚ) : ℚ :=
  max (1 / 10000) (if cfg.adaptiveInterpStepPx = 0 then cfg.interpStepPx else cfg.adaptiveInterpStepPx)
    / max perfQuality (1 / 10000)

/-- Lines 1708-1712: the interpolation segment count (an integer ≥ 1;
`Math.round` rounds half toward `+∞`, as `round` on `ℚ` does). -/
def segmentsOf (cfg : TrailCfg) (perfQuality metric : ℚ) : ℤ :=
  min (max 1 (round (cfg.maxInterpPerPush * perfQuality)))
    (max 1 ⌈metric / adaptiveStepOf cfg perfQuality⌉)

/-- The processing of one interpolated entry in the loop of lines
1717-1737: lerp between the previous stored polygon and the processed
one, re-canonicalize against the previously accepted entry, re-correct. -/
def entryPts (sq : ℚ → ℚ) (cfg : TrailCfg) (lpPts ptsF prevPts : List Point)
    (tp : Option Point) (i : ℕ) (segs : ℤ) : List Point :=
  let e0 := lerpPolygon lpPts ptsF ((i : ℚ) / (segs : ℚ))
  let e1 := if cfg.twistGuardEnabled ∧ prevPts.length = e0.length
    then canonicalizePolygon sq e0 (some prevPts) else e0
  match tp with
  | some p => enforceLeadingAxisCorner sq e1 p
  | none => e1

/-- One iteration of the interpolation loop: accumulate the accepted
samples, the last accepted polygon, and the `pushedAny` flag; invalid
entries are skipped (`continue`). -/
def entryStep (sq : ℚ → ℚ) (cfg : TrailCfg) (lpPts ptsF : List Point) (tp : Option Point)
    (stampMs : ℚ) (segs : ℤ) (acc : List TrailSample × List Point × Bool) (i : ℕ) :
    List TrailSample × List Point × Bool :=
  let e := entryPts sq cfg lpPts ptsF acc.2.1 tp i segs
  if isValidTrailPolygon e then
    let c := polygonCenter e
    (acc.1 ++ [⟨stampMs, c.x, c.y, e⟩], e, true)
  else acc

/-- The whole interpolation loop `for (i = 1; i <= segments; i++)`. -/
def entryLoop (sq : ℚ → ℚ) (cfg : TrailCfg) (lpPts ptsF : List Point) (tp : Option Point)
    (stampMs : ℚ) (segs : ℤ) : List TrailSample × List Point × Bool :=
  ((List.range segs.toNat).map fun i => i + 1).foldl
    (entryStep sq cfg lpPts ptsF tp stampMs segs) ([], lpPts, false)

/-- `pushTrailPolygon(poly, targetPoint, stampMs, perfQuality)`
(lines 1645-1743), as a pure function on `TrailState`. -/
def pushTrailPolygon (sq : ℚ → ℚ) (cfg : TrailCfg) (st : TrailState) (poly : List Point)
    (tp : Option Point) (stampMs perfQuality : ℚ) : TrailState :=
  if poly.length < 3 then st
  else
    let pts2 := pushStage1 sq cfg (st.lastPushed.map TrailSample.pts) poly tp
    if ¬ isValidTrailPolygon pts2 then st
    else
      let center := polygonCenter pts2
      match st.lastPushed with
      | none =>
        let first : TrailSample := ⟨stampMs, center.x, center.y, pts2⟩
        ⟨capTrail cfg (st.trail ++ [first]), some first⟩
      | some lp =>
        let pts7 := pushStage2 sq cfg lp pts2 tp
        if ¬ isValidTrailPolygon pts7 then st
        else
          let metric := interpMetricOf sq lp pts7
          if metric < moveThreshold cfg then st
          else
            let segs := segmentsOf cfg perfQuality metric
            let out := entryLoop sq cfg lp.pts pts7 tp stampMs segs
            let trail1 := st.trail ++ out.1
            let lastP := if out.2.2 then trail1.getLast? else some lp
            ⟨capTrail cfg trail1, lastP⟩

/-- `pruneTrail(now)` (lines 1745-1750): the reverse-index splice loop
removes exactly the samples with `now - t > ttlMs`, keeping the
survivors in order, i.e. a filter; `lastPushed` is not touched. -/
def pruneTrail (cfg : TrailCfg) (st : TrailState) (now : ℚ) : TrailState :=
  ⟨st.trail.filter fun s => ¬ (cfg.ttlMs < now - s.t), st.lastPushed⟩

/-- An operation on the trail store, for stating buffer invariants over
arbitrary call sequences. -/
inductive TrailOp where
  | push (poly : List Point) (tp : Option Point) (stampMs perfQuality : ℚ)
  | prune (now : ℚ)

/-- Apply one operation. -/
def applyOp (sq : ℚ → ℚ) (cfg : TrailCfg) (st : TrailState) : TrailOp → TrailState
  | .push poly tp stampMs q => pushTrailPolygon sq cfg st poly tp stampMs q
  | .prune now => pruneTrail cfg st now

/-- Run a sequence of operations from a state. -/
def runOps (sq : ℚ → ℚ) (cfg : TrailCfg) (st : TrailState) (ops : List TrailOp) : TrailState :=
  ops.foldl (applyOp sq cfg) st

/-- The buffer invariant maintained by every operation: every stored
sample's polygon passes the validity check. -/
def TrailValidInv (st : TrailState) : Prop :=
  ∀ s ∈ st.trail, isValidTrailPolygon s.pts = true

/-- The interpolation entries of one push under the assumption that
every generated entry passes the validity check (so each entry is
processed against the previous one): entry `0` is the previous stored
polygon, entry `n+1` is the processed lerp at `t = (n+1)/segs`. -/
def idealEntry (sq : ℚ → ℚ) (cfg : TrailCfg) (lpPts ptsF : List Point) (tp : Option Point)
    (segs : ℤ) : ℕ → List Point
  | 0 => lpPts
  | n + 1 => entryPts sq cfg lpPts ptsF (idealEntry sq cfg lpPts ptsF tp segs n) tp (n + 1) segs

/-- The trail sample built from `idealEntry n`. -/
def idealSample (sq : ℚ → ℚ) (cfg : TrailCfg) (lpPts ptsF : List Point) (tp : Option Point)
    (stampMs : ℚ) (segs : ℤ) (n : ℕ) : TrailSample :=
  ⟨stampMs, (polygonCenter (idealEntry sq cfg lpPts ptsF tp segs n)).x,
    (polygonCenter (idealEntry sq cfg lpPts ptsF tp segs n)).y,
    idealEntry sq cfg lpPts ptsF tp segs n⟩

/-- The fully processed polygon of a non-first push (stage 1 then
stage 2 against the previous sample). -/
def processedPush (sq : ℚ → ℚ) (cfg : TrailCfg) (lp : TrailSample) (poly : List Point)
    (tp : Option Point) : List Point :=
  pushStage2 sq cfg lp (pushStage1 sq cfg (some lp.pts) poly tp) tp

/-- The movement metric of a non-first push. -/
def pushMetricOf (sq : ℚ → ℚ) (cfg : TrailCfg) (lp : TrailSample) (poly : List Point)
    (tp : Option Point) : ℚ :=
  interpMetricOf sq lp (processedPush sq cfg lp poly tp)

/-- An axis-aligned square trail polygon (C5/C7 witnesses). -/
def lpSquare : List Point := [⟨0, 0⟩, ⟨10, 0⟩, ⟨10, 10⟩, ⟨0, 10⟩]

/-- The same square moved 200 px to the right (C5 witness). -/
def movedSquare : List Point := [⟨200, 0⟩, ⟨210, 0⟩, ⟨210, 10⟩, ⟨200, 10⟩]

/-- A stored sample holding `lpSquare` (C5 witness). -/
def lpSample0 : TrailSample := ⟨0, 5, 5, lpSquare⟩

/-- A trail state whose last pushed sample is `lpSample0` (C5 witness). -/
def pushSt0 : TrailState := ⟨[lpSample0], some lpSample0⟩

-- ====================================================================
-- SECTION 5: critically damped spring (`CritDamped1D`), over ℝ
-- ====================================================================

/-- `CritDamped1D` state `{ pos, vel, tau }`. -/
structure CritDamped1D where
  pos : ℝ
  vel : ℝ
  tau : ℝ

open scoped Classical in
/-- `step(dt)` (lines 1029-1044): snap to rest when `tau <= dt` or
`|pos| < 0.001`, otherwise apply the closed-form update with
`o = 4/tau`, returning whether `|pos| >= 0.01` afterwards. -/
noncomputable def CritDamped1D.step (s : CritDamped1D) (dt : ℝ) : CritDamped1D × Bool :=
  if s.tau ≤ dt ∨ |s.pos| < 1 / 1000 then (⟨0, 0, s.tau⟩, false)
  else
    let o := 4 / s.tau
    let a := s.pos
    let b := s.pos * o + s.vel
    let c := Real.exp (-o * dt)
    let pos1 := (a + b * dt) * c
    let vel1 := c * (-a * o - b * dt * o + b)
    (⟨pos1, vel1, s.tau⟩, if 1 / 100 ≤ |pos1| then true else false)

open scoped Classical in
/-- The spec's description of the same step (§4.1): with `ω = 4/τ`,
`a = x0`, `b = v0 + ω·a`, the closed form `x(t) = (a + b·t)·e^(−ω·t)`,
`v(t) = e^(−ω·t)·(b − ω·(a + b·t))`; snap to rest when `τ ≤ dt` or the
offset is below `0.001`, and report moving exactly when the resulting
offset magnitude is at least `0.01`. -/
noncomputable def specCritStep (s : CritDamped1D) (dt : ℝ) : CritDamped1D × Bool :=
  if s.tau ≤ dt ∨ |s.pos| < 1 / 1000 then (⟨0, 0, s.tau⟩, false)
  else
    let omega := 4 / s.tau
    let a := s.pos
    let b := s.vel + omega * a
    let x1 := (a + b * dt) * Real.exp (-omega * dt)
    let v1 := Real.exp (-omega * dt) * (b - omega * (a + b * dt))
    (⟨x1, v1, s.tau⟩, if 1 / 100 ≤ |x1| then true else false)

-- ====================================================================
-- SECTION 7: corner control (`Corner.update`), over ℝ
-- ====================================================================

/-- `CFG.animation.length`. -/
noncomputable def animationLength : ℝ := 1 / 4

/-- `CFG.animation.shortLength`. -/
noncomputable def shortLength : ℝ := 1 / 8

/-- `CFG.dynamics.hardSnap`. -/
def dynHardSnap : Bool := false

/-- `CFG.dynamics.snapAnimationLength`. -/
noncomputable def snapAnimationLength : ℝ := 4 / 25

/-- `CFG.dynamics.leadingSnapThreshold`. -/
noncomputable def leadingSnapThreshold : ℝ := 8 / 25

/-- `CFG.dynamics.maxTrailDistanceFactor`. -/
noncomputable def maxTrailDistanceFactor : ℝ := 8

/-- `CFG.dynamics.rankFactors`. -/
noncomputable def rankFactors : List ℝ := [4 / 5, 2 / 5, 2 / 5, 1 / 5]

/-- A `Corner`'s state: the fixed relative offset, the current position
`(cx, cy)`, the two springs' velocities (their positions are re-based
from `cx`/`cy` every update), and the previous destination. -/
structure CornerState where
  relx : ℝ
  rely : ℝ
  cx : ℝ
  cy : ℝ
  vx : ℝ
  vy : ℝ
  pdx : ℝ
  pdy : ℝ

open scoped Classical in
/-- `Corner.update(dt, centerX, centerY, w, h, rankFactor, snapState)`
(lines 1108-1160).  On first observation (`pdx < -1e4`) snap to the
destination with zero velocity.  Otherwise re-base each spring's offset
to `current − destination`, pick the time constant from the hard-snap
threshold or `max(0.010, base·rankFactor)`, step both springs, recompute
the position and clamp it into the `maxTrailDistanceFactor·max(w,h)`
box.  (The hard-snap positional jump of lines 1136-1144 writes `cx`/`cy`
after the springs were re-based and before they are recomputed from
`dest + pos` in lines 1149-1150, so it never reaches the returned state;
with `hardSnap = false` the branch is unreachable anyway.) -/
noncomputable def cornerUpdate (c : CornerState) (dt cX cY w h rankFactor : ℝ)
    (useShort : Bool) (leadingness : ℝ) : CornerState × Bool :=
  let destx := cX + c.relx * w
  let desty := cY + c.rely * h
  if c.pdx < -10000 then
    (⟨c.relx, c.rely, destx, desty, 0, 0, destx, desty⟩, false)
  else
    let base := if useShort then shortLength else animationLength
    let tau := if dynHardSnap ∧ leadingSnapThreshold ≤ leadingness then snapAnimationLength
      else max (1 / 100) (base * rankFactor)
    let sx := CritDamped1D.step ⟨c.cx - destx, c.vx, tau⟩ dt
    let sy := CritDamped1D.step ⟨c.cy - desty, c.vy, tau⟩ dt
    let maxStretch := maxTrailDistanceFactor * max w h
    let cx1 := clamp (destx + sx.1.pos) (destx - maxStretch) (destx + maxStretch)
    let cy1 := clamp (desty + sy.1.pos) (desty - maxStretch) (desty + maxStretch)
    (⟨c.relx, c.rely, cx1, cy1, sx.1.vel, sy.1.vel, destx, desty⟩, sx.2 || sy.2)

/-- Iterated corner updates against a fixed (stationary) target; the
second component is the moving flag returned by the latest tick. -/
noncomputable def cornerIter (c0 : CornerState) (dt cX cY w h rankFactor : ℝ)
    (useShort : Bool) (leadingness : ℝ) : ℕ → CornerState × Bool
  | 0 => (c0, false)
  | k + 1 => cornerUpdate (cornerIter c0 dt cX cY w h rankFactor useShort leadingness k).1
      dt cX cY w h rankFactor useShort leadingness

/-- The exact flow of the critically damped spring from offset `x0` and
zero velocity: position after `k` steps of size `dt`. -/
noncomputable def springX (x0 om dt : ℝ) (k : ℕ) : ℝ :=
  x0 * (1 + om * k * dt) * Real.exp (-(om * k * dt))

/-- The matching spring velocity after `k` steps. -/
noncomputable def springV (x0 om dt : ℝ) (k : ℕ) : ℝ :=
  -(x0 * om ^ 2 * k * dt) * Real.exp (-(om * k * dt))

/-- The per-axis trajectory of a corner spring against a fixed target:
offset and velocity after `k` steps of `CritDamped1D.step` at time
constant `tau`, starting from offset `x0` and velocity `v0`. -/
noncomputable def axisRun (x0 v0 tau dt : ℝ) : ℕ → ℝ × ℝ
  | 0 => (x0, v0)
  | k + 1 =>
    ((CritDamped1D.step ⟨(axisRun x0 v0 tau dt k).1, (axisRun x0 v0 tau dt k).2, tau⟩ dt).1.pos,
      (CritDamped1D.step ⟨(axisRun x0 v0 tau dt k).1, (axisRun x0 v0 tau dt k).2, tau⟩ dt).1.vel)


/-- A concrete corner state: offset 100 px from its destination on the
x-axis, at rest, already past first observation. -/
noncomputable def cexCorner : CornerState := ⟨-1/2, -1/2, 100, 0, 0, 0, 0, 0⟩

-- ====================================================================
-- SECTION 10: directional hex-cell renderer (`drawStackedHexTrail`)
-- ====================================================================

def pointSub (a b : Point) : Point := ⟨a.x - b.x, a.y - b.y⟩

def pointAdd (a b : Point) : Point := ⟨a.x + b.x, a.y + b.y⟩

def pointScale (p : Point) (s : ℚ) : Point := ⟨p.x * s, p.y * s⟩

def pointMid (a b : Point) : Point := ⟨(a.x + b.x) / 2, (a.y + b.y) / 2⟩

/-- `pointLen(p) = Math.hypot(p.x, p.y)` with the square root passed
explicitly. -/
def pointLen (sq : ℚ → ℚ) (p : Point) : ℚ := sq (p.x ^ 2 + p.y ^ 2)

/-- `pointNormalize(p)`. -/
def pointNormalize (sq : ℚ → ℚ) (p : Point) : Point :=
  let d := pointLen sq p
  if d < geomEps then ⟨0, 0⟩ else ⟨p.x / d, p.y / d⟩

def pointDotQ (a b : Point) : ℚ := a.x * b.x + a.y * b.y

def pointPerp (p : Point) : Point := ⟨-p.y, p.x⟩

/-- `angleBetweenDirs(a, b) = Math.acos(clamp(dot(normalize a,
normalize b), -1, 1))`, with `Math.acos` abstracted as `acosFn`. -/
def angleBetweenDirs (sq acosFn : ℚ → ℚ) (a b : Point) : ℚ :=
  acosFn (clamp (pointDotQ (pointNormalize sq a) (pointNormalize sq b)) (-1) 1)

/-- `aabbFromPolygon(pts)` as `(minX, minY, maxX, maxY)`: folded
`Math.min`/`Math.max` starting from `±Infinity`, i.e. the fold over the
nonempty list (empty polygons are filtered out by the `length < 3`
guard of `polygonsOverlap` before this is consulted). -/
def aabbFromPolygon (pts : List Point) : ℚ × ℚ × ℚ × ℚ :=
  match pts with
  | [] => (0, 0, 0, 0)
  | p :: rest =>
    rest.foldl
      (fun acc q =>
        (min acc.1 q.x, min acc.2.1 q.y, max acc.2.2.1 q.x, max acc.2.2.2 q.y))
      (p.x, p.y, p.x, p.y)

/-- `aabbOverlaps(a, b, eps)`. -/
def aabbOverlaps (a b : ℚ × ℚ × ℚ × ℚ) (eps : ℚ) : Bool :=
  !(decide (a.2.2.1 < b.1 - eps) || decide (b.2.2.1 < a.1 - eps) ||
    decide (a.2.2.2 < b.2.1 - eps) || decide (b.2.2.2 < a.2.1 - eps))

/-- `pointInPolygon(pt, poly)`: the even-odd ray cast, with the
division-by-near-zero guard `Math.max(1e-9, yj - yi)`. -/
def pointInPolygon (pt : Point) (poly : List Point) : Bool :=
  let n := poly.length
  ((List.range n).foldl
    (fun inside i =>
      let pi := poly.getD i default
      let pj := poly.getD ((i + n - 1) % n) default
      let crosses := (decide (pi.y > pt.y)) != (decide (pj.y > pt.y))
      if crosses then
        let xCross := (pj.x - pi.x) * (pt.y - pi.y) / max (1 / 1000000000) (pj.y - pi.y) + pi.x
        if pt.x < xCross then !inside else inside
      else inside)
    false)

/-- `polygonsOverlap(a, b, eps)`: bounding-box pre-check, every edge
pair, then mutual containment of the first vertices. -/
def polygonsOverlap (a b : List Point) (eps : ℚ) : Bool :=
  if a.length < 3 ∨ b.length < 3 then false
  else if ¬ aabbOverlaps (aabbFromPolygon a) (aabbFromPolygon b) eps then false
  else if (List.range a.length).any (fun i =>
      (List.range b.length).any fun j =>
        segmentsIntersect (a.getD i default) (a.getD ((i + 1) % a.length) default)
          (b.getD j default) (b.getD ((j + 1) % b.length) default) eps) then true
  else if pointInPolygon (a.getD 0 default) b then true
  else pointInPolygon (b.getD 0 default) a

/-- A trail cross-section produced by `buildTrailSections` (draw-time
age-scaled, resampled polygons with their centers and age fractions);
the cell-construction loop of `drawStackedHexTrail` consumes these. -/
structure HexSection where
  pts : List Point
  cx : ℚ
  cy : ℚ
  frac : ℚ

/-- The `CFG.trail.stackHex` knobs, default-valued from the source. -/
structure StackHexCfg where
  enabled : Bool := false
  partialEdgeShare : ℚ := 7 / 20
  concavityDepth : ℚ := 9 / 50
  headQuadCells : ℕ := 2
  concavityBackward : Bool := false
  overlapEpsilonPx : ℚ := 1 / 4
  minCellWidthPx : ℚ := 4 / 5
  maxCellsPerFrame : ℚ := 48
  dynamicSizeEnabled : Bool := true
  baseLenPx : ℚ := 11
  minLenPx : ℚ := 4
  maxLenPx : ℚ := 22
  minWidthScale : ℚ := 18 / 25
  maxWidthScale : ℚ := 5 / 4
  curvatureNormRad : ℚ := 9 / 50
  speedNormPx : ℚ := 20
  qualityCoarsenMax : ℚ := 9 / 5
  curvatureWeight : ℚ := 11 / 20
  speedWeight : ℚ := 1 / 4
  headWeight : ℚ := 1 / 5
  sizeLerpAlpha : ℚ := 7 / 20
  widthLerpAlpha : ℚ := 3 / 10
  perpToleranceDeg : ℚ := 4

/-- `CFG.trail.minAlpha`. -/
def trailMinAlpha : ℚ := 0

/-- `drawScratch.stackSizeState`. -/
structure StackSizeState where
  valid : Bool
  len : ℚ
  widthScale : ℚ

/-- A frame `{c, d, n, l, r, w, frac}` for a cross-section. -/
structure SectionFrame where
  c : Point
  d : Point
  n : Point
  l : Point
  r : Point
  w : ℚ
  frac : ℚ

/-- `computeSectionFrame(section, dirHint, minCellWidthPx)`
(lines 1861-1883). -/
def computeSectionFrame (sq : ℚ → ℚ) (sec : HexSection) (dirHint : Point)
    (minCellWidthPx : ℚ) : SectionFrame :=
  let d0 := pointNormalize sq dirHint
  let d := if pointLen sq d0 < geomEps then (⟨1, 0⟩ : Point) else d0
  let n0 := pointNormalize sq (pointPerp d)
  let n := if pointLen sq n0 < geomEps then (⟨0, 1⟩ : Point) else n0
  let projs := sec.pts.map fun p => pointDotQ ⟨p.x - sec.cx, p.y - sec.cy⟩ n
  let minProj0 := match projs with | [] => (0 : ℚ) | p :: rest => rest.foldl min p
  let maxProj0 := match projs with | [] => (0 : ℚ) | p :: rest => rest.foldl max p
  let minProj := if maxProj0 - minProj0 < minCellWidthPx then -(minCellWidthPx / 2) else minProj0
  let maxProj := if maxProj0 - minProj0 < minCellWidthPx then minCellWidthPx / 2 else maxProj0
  let c : Point := ⟨sec.cx, sec.cy⟩
  ⟨c, d, n, pointAdd c (pointScale n minProj), pointAdd c (pointScale n maxProj),
    max minCellWidthPx (maxProj - minProj), sec.frac⟩

/-- The mutable loop state of the cell-construction loop. -/
structure HexLoopState where
  baseL : Point
  baseR : Point
  prevD : Point
  smoothLen : ℚ
  smoothWidth : ℚ
  rendered : List (List Point)
  drewAny : Bool

/-- The result of `drawStackedHexTrail`: the cells it filled (in
acceptance order), whether it drew anything, and the updated
`stackSizeState`. -/
structure HexOut where
  cells : List (List Point)
  drewAny : Bool
  dyn : StackSizeState

/-- The `picked` stride-sampling of section indices (lines 1922-1927). -/
def pickedIndices (cfg : StackHexCfg) (numSections : ℕ) (clampedQuality : ℚ) : List ℕ :=
  let maxCells := max 1 (round (max 1 cfg.maxCellsPerFrame * clampedQuality))
  let available : ℤ := (numSections : ℤ) - 1
  let stride := (max 1 ⌈(available : ℚ) / (maxCells : ℚ)⌉).toNat
  let mids := ((List.range (numSections - 1)).filter fun i => i ≠ 0 ∧ i % stride = 0)
  let base := 0 :: mids
  if base.getLast? = some (numSections - 1) then base else base ++ [numSections - 1]

/-- One iteration of the cell loop (lines 1948-2059): build the local
frame, the curvature/speed/head pressures, the smoothed target size, the
handoff edge and the hex candidate; reject it if self-intersecting or
overlapping a previously accepted cell other than the most recent one,
falling back to the quad variant for non-head cells; accept (fill) when
valid with positive alpha.  The canvas fill/stroke becomes appending the
cell to `rendered`. -/
def hexCellStep (sq acosFn acosDegFn : ℚ → ℚ) (cfg : StackHexCfg)
    (trailOpacity clampedQuality : ℚ) (picked : List ℕ) (sections : List HexSection)
    (st : HexLoopState) (ci : ℕ) : HexLoopState :=
  let s0 := sections.getD (picked.getD ci 0) ⟨[], 0, 0, 0⟩
  let s1 := sections.getD (picked.getD (ci + 1) 0) ⟨[], 0, 0, 0⟩
  let rawMove : Point := ⟨s1.cx - s0.cx, s1.cy - s0.cy⟩
  let rawD0 := pointNormalize sq rawMove
  let rawD := if pointLen sq rawD0 < geomEps then st.prevD else rawD0
  let baseVec := pointSub st.baseR st.baseL
  let baseDir0 := pointNormalize sq baseVec
  let baseDir :=
    if pointLen sq baseDir0 < geomEps then
      let b1 := pointNormalize sq (pointPerp rawD)
      if pointLen sq b1 < geomEps then (⟨1, 0⟩ : Point) else b1
    else baseDir0
  let dA := pointPerp baseDir
  let dB := pointScale dA (-1)
  let dFirst := if pointDotQ dB rawD ≤ pointDotQ dA rawD then dA else dB
  let angleDeg := acosDegFn (clamp (pointDotQ baseDir (pointNormalize sq dFirst)) (-1) 1)
  let perpDeviationDeg := |90 - angleDeg|
  -- The `perpDeviationDeg > perpToleranceDeg` branch re-evaluates the
  -- identical conditional expression, so `dDir = dFirst` either way.
  let dDir := if max 0 cfg.perpToleranceDeg < perpDeviationDeg
    then (if pointDotQ dB rawD ≤ pointDotQ dA rawD then dA else dB) else dFirst
  let nDir := baseDir
  let baseMid := pointMid st.baseL st.baseR
  let baseWidth := max cfg.minCellWidthPx (pointLen sq baseVec)
  let curvature := angleBetweenDirs sq acosFn st.prevD dDir
  let curvPressure := clamp (curvature / max (1 / 10000) cfg.curvatureNormRad) 0 1
  let speedPx := pointLen sq rawMove
  let slowPressure := 1 - clamp (speedPx / max (1 / 10000) cfg.speedNormPx) 0 1
  let cellIndexFromHead : ℤ := (picked.length : ℤ) - 2 - ci
  let headInfluenceCells : ℤ := max 4 ((cfg.headQuadCells : ℤ) + 2)
  let headPressure := clamp (1 - (cellIndexFromHead : ℚ) / (headInfluenceCells : ℚ)) 0 1
  let detailNeed := clamp (cfg.curvatureWeight * curvPressure + cfg.speedWeight * slowPressure
    + cfg.headWeight * headPressure) 0 1
  let qualityCoarsen := lerp 1 (max 1 cfg.qualityCoarsenMax) (1 - clampedQuality)
  let targetLen := if cfg.dynamicSizeEnabled
    then lerp cfg.maxLenPx cfg.minLenPx detailNeed * qualityCoarsen else cfg.baseLenPx
  let targetWidthScale := if cfg.dynamicSizeEnabled
    then lerp cfg.maxWidthScale cfg.minWidthScale detailNeed * lerp 1 (6 / 5) (1 - clampedQuality)
    else 1
  let smoothLen0 := lerp st.smoothLen targetLen (clamp cfg.sizeLerpAlpha 0 1)
  let smoothWidth0 := lerp st.smoothWidth targetWidthScale (clamp cfg.widthLerpAlpha 0 1)
  let smoothLen := clamp smoothLen0 (max 1 cfg.minLenPx)
    (max cfg.minLenPx (cfg.maxLenPx * max 1 cfg.qualityCoarsenMax))
  let smoothWidth := clamp smoothWidth0 (max (1 / 1000) cfg.minWidthScale)
    (max cfg.minWidthScale (cfg.maxWidthScale * (6 / 5)))
  let handoffCenter := pointAdd baseMid (pointScale dDir smoothLen)
  let handoffWidth := max cfg.minCellWidthPx (baseWidth * smoothWidth)
  let halfW := handoffWidth / 2
  let handoffL := pointAdd handoffCenter (pointScale nDir (-halfW))
  let handoffR := pointAdd handoffCenter (pointScale nDir halfW)
  let partR0 := lerpPoint st.baseR handoffR (clamp cfg.partialEdgeShare 0 1)
  let partL0 := lerpPoint st.baseL handoffL (clamp cfg.partialEdgeShare 0 1)
  let concavitySign : ℚ := if cfg.concavityBackward then -1 else 1
  let concavityTarget := pointAdd baseMid
    (pointScale dDir (concavitySign * smoothLen * cfg.concavityDepth))
  let concavityStep := max 0 cfg.concavityDepth * handoffWidth
  let partR := clampPointStep sq partR0 concavityTarget concavityStep
  let partL := clampPointStep sq partL0 concavityTarget concavityStep
  let headQuad := cellIndexFromHead < (cfg.headQuadCells : ℤ)
  let quadCell := [st.baseL, st.baseR, handoffR, handoffL]
  let cellPts0 := if headQuad then quadCell
    else [st.baseL, st.baseR, partR, handoffR, handoffL, partL]
  let valid0 := isValidTrailPolygon cellPts0 &&
    !(1 < st.rendered.length &&
      (List.range (st.rendered.length - 1)).any fun j =>
        polygonsOverlap cellPts0 (st.rendered.getD j []) cfg.overlapEpsilonPx)
  let cellPts := if !valid0 && !headQuad then quadCell else cellPts0
  let valid := if !valid0 && !headQuad then isValidTrailPolygon quadCell else valid0
  let alphaCell := clamp ((1 - s1.frac) * trailOpacity) trailMinAlpha 1
  let accept := valid && decide (0 < alphaCell)
  { baseL := handoffL
    baseR := handoffR
    prevD := dDir
    smoothLen := smoothLen
    smoothWidth := smoothWidth
    rendered := if accept then st.rendered ++ [cellPts] else st.rendered
    drewAny := st.drewAny || accept }

/-- `drawStackedHexTrail` (lines 1884-2069), from the point where the
cross-sections are available.  `buildTrailSections` (the draw-time
age-scaling/resampling of the trail buffer under the subdivision budget)
is modelled as the `sections` input; everything from the `picked`
stride-sampling on follows the source. -/
def drawStackedHexTrail (sq acosFn acosDegFn : ℚ → ℚ) (cfg : StackHexCfg)
    (sections : List HexSection) (trailOpacity clampedQuality : ℚ)
    (dyn : StackSizeState) : HexOut :=
  if !cfg.enabled then ⟨[], false, dyn⟩
  else if sections.length < 2 then ⟨[], false, ⟨false, dyn.len, dyn.widthScale⟩⟩
  else
    let picked := pickedIndices cfg sections.length clampedQuality
    if picked.length < 2 then ⟨[], false, ⟨false, dyn.len, dyn.widthScale⟩⟩
    else
      let sFirst := sections.getD (picked.getD 0 0) ⟨[], 0, 0, 0⟩
      let sSecond := sections.getD (picked.getD 1 0) ⟨[], 0, 0, 0⟩
      let firstDir := pointNormalize sq ⟨sSecond.cx - sFirst.cx, sSecond.cy - sFirst.cy⟩
      let firstFrame := computeSectionFrame sq sFirst firstDir cfg.minCellWidthPx
      let st0 : HexLoopState :=
        { baseL := firstFrame.l
          baseR := firstFrame.r
          prevD := if geomEps < pointLen sq firstDir then firstDir else ⟨1, 0⟩
          smoothLen := if dyn.valid then dyn.len else max 1 cfg.baseLenPx
          smoothWidth := if dyn.valid then dyn.widthScale else 1
          rendered := []
          drewAny := false }
      let stF := (List.range (picked.length - 1)).foldl
        (hexCellStep sq acosFn acosDegFn cfg trailOpacity clampedQuality picked sections) st0
      if stF.drewAny then ⟨stF.rendered, true, ⟨true, stF.smoothLen, stF.smoothWidth⟩⟩
      else ⟨stF.rendered, false, ⟨false, dyn.len, dyn.widthScale⟩⟩

-- ====================================================================

/-- A square cross-section of side 10 centered at `(cx, 0)` (concrete
renderer input). -/
def hexSquare (cx : ℚ) : HexSection :=
  ⟨[⟨cx - 5, -5⟩, ⟨cx + 5, -5⟩, ⟨cx + 5, 5⟩, ⟨cx - 5, 5⟩], cx, 0, 0⟩

/-- Six equally spaced square cross-sections along the x-axis (concrete
renderer input). -/
def hexSections : List HexSection :=
  [hexSquare 0, hexSquare 20, hexSquare 40, hexSquare 60, hexSquare 80, hexSquare 100]

/-- The stack-hex configuration with the renderer enabled and all other
knobs at their source defaults. -/
def hexCfgOn : StackHexCfg := { enabled := true }

/-- A concrete `Math.acos` oracle, exact on the inputs arising in the
`hexSections` run (`acos 1 = 0`; other arguments there never reach the
curvature deadline, any positive stand-in works). -/
def hexAcos : ℚ → ℚ := fun x => if 1 ≤ x then 0 else 1

/-- A concrete degree-valued `Math.acos` oracle, exact on the inputs
arising in the `hexSections` run (`acosDeg 0 = 90`). -/
def hexAcosDeg : ℚ → ℚ := fun x => if 0 ≤ x ∧ x ≤ 0 then 90 else 0

-- Theorems
-- ====================================================================

section ClampLemmas

variable {α : Type _} [LinearOrder α]

lemma clamp_le_hi {v lo hi : α} : clamp v lo hi ≤ hi := min_le_right _ _

lemma lo_le_clamp {v lo hi : α} (h : lo ≤ hi) : lo ≤ clamp v lo hi :=
  le_min (le_max_right _ _) h

lemma clamp_eq_self {v lo hi : α} (h1 : lo ≤ v) (h2 : v ≤ hi) : clamp v lo hi = v := by
  unfold clamp
  rw [max_eq_left h1, min_eq_left h2]

lemma clamp_nonneg {v lo hi : α} [Zero α] (h0 : (0 : α) ≤ lo) (h : lo ≤ hi) :
    (0 : α) ≤ clamp v lo hi := le_trans h0 (lo_le_clamp h)

end ClampLemmas

-- --------------------------------------------------------------------
-- C2: the scalar spring step matches the spec's closed form
-- --------------------------------------------------------------------

/-- C2: for every `dt` and every state, `CritDamped1D.step` snaps to
rest (zero offset and velocity, reporting not-moving) exactly when
`τ ≤ dt` or `|offset| < 0.001`, and otherwise applies the closed-form
update `x(t) = (a + b·t)·e^(−ω·t)`, `v(t) = e^(−ω·t)·(b − ω·(a + b·t))`
with `a = x0`, `b = v0 + ω·x0`, `ω = 4/τ`, reporting moving exactly when
the resulting `|offset| ≥ 0.01`: the code's step function is equal to
the spec's (`specCritStep`). -/
theorem claim_C2 (s : CritDamped1D) (dt : ℝ) : s.step dt = specCritStep s dt := by
  unfold CritDamped1D.step specCritStep
  split
  · rfl
  · have hpos : (s.pos + (s.pos * (4 / s.tau) + s.vel) * dt) * Real.exp (-(4 / s.tau) * dt)
        = (s.pos + (s.vel + 4 / s.tau * s.pos) * dt) * Real.exp (-(4 / s.tau) * dt) := by
      ring
    have hvel : Real.exp (-(4 / s.tau) * dt) *
          (-s.pos * (4 / s.tau) - (s.pos * (4 / s.tau) + s.vel) * dt * (4 / s.tau)
            + (s.pos * (4 / s.tau) + s.vel))
        = Real.exp (-(4 / s.tau) * dt) *
          (s.vel + 4 / s.tau * s.pos - 4 / s.tau * (s.pos + (s.vel + 4 / s.tau * s.pos) * dt)) := by
      ring
    show (⟨_, _, s.tau⟩, _) = ((⟨_, _, s.tau⟩, _) : CritDamped1D × Bool)
    rw [hpos, hvel]

-- --------------------------------------------------------------------
-- C9: oscillator deadzone is exact, and the kicked run ends at zero
-- --------------------------------------------------------------------

lemma UnderDampedScalar.steps_add (s : UnderDampedScalar) (dt : ℚ) (m n : ℕ) :
    s.steps dt (m + n) = (s.steps dt m).steps dt n := by
  induction n with
  | zero => rfl
  | succ n ih => rw [← Nat.add_assoc, steps, steps, ih]

lemma UnderDampedScalar.ext2 {a b : UnderDampedScalar} (hx : a.x = b.x) (hv : a.v = b.v) :
    a = b := by
  cases a; cases b; simp_all

set_option maxRecDepth 4000 in
lemma oscChunk1x : (UnderDampedScalar.steps (UnderDampedScalar.kick ⟨0, 0⟩ 5) (1 / 60) 20).x - oscS20.x = 0 := by
  with_unfolding_all decide

set_option maxRecDepth 4000 in
lemma oscChunk1v : (UnderDampedScalar.steps (UnderDampedScalar.kick ⟨0, 0⟩ 5) (1 / 60) 20).v - oscS20.v = 0 := by
  with_unfolding_all decide

lemma oscChunk1 : UnderDampedScalar.steps (UnderDampedScalar.kick ⟨0, 0⟩ 5) (1 / 60) 20 = oscS20 :=
  UnderDampedScalar.ext2 (sub_eq_zero.mp oscChunk1x) (sub_eq_zero.mp oscChunk1v)

set_option maxRecDepth 4000 in
lemma oscChunk2x : (UnderDampedScalar.steps (oscS20) (1 / 60) 20).x - oscS40.x = 0 := by
  with_unfolding_all decide

set_option maxRecDepth 4000 in
lemma oscChunk2v : (UnderDampedScalar.steps (oscS20) (1 / 60) 20).v - oscS40.v = 0 := by
  with_unfolding_all decide

lemma oscChunk2 : UnderDampedScalar.steps (oscS20) (1 / 60) 20 = oscS40 :=
  UnderDampedScalar.ext2 (sub_eq_zero.mp oscChunk2x) (sub_eq_zero.mp oscChunk2v)

set_option maxRecDepth 4000 in
lemma oscChunk3x : (UnderDampedScalar.steps (oscS40) (1 / 60) 20).x - oscS60.x = 0 := by
  with_unfolding_all decide

set_option maxRecDepth 4000 in
lemma oscChunk3v : (UnderDampedScalar.steps (oscS40) (1 / 60) 20).v - oscS60.v = 0 := by
  with_unfolding_all decide

lemma oscChunk3 : UnderDampedScalar.steps (oscS40) (1 / 60) 20 = oscS60 :=
  UnderDampedScalar.ext2 (sub_eq_zero.mp oscChunk3x) (sub_eq_zero.mp oscChunk3v)

set_option maxRecDepth 4000 in
lemma oscChunk4x : (UnderDampedScalar.steps (oscS60) (1 / 60) 20).x - oscS80.x = 0 := by
  with_unfolding_all decide

set_option maxRecDepth 4000 in
lemma oscChunk4v : (UnderDampedScalar.steps (oscS60) (1 / 60) 20).v - oscS80.v = 0 := by
  with_unfolding_all decide

lemma oscChunk4 : UnderDampedScalar.steps (oscS60) (1 / 60) 20 = oscS80 :=
  UnderDampedScalar.ext2 (sub_eq_zero.mp oscChunk4x) (sub_eq_zero.mp oscChunk4v)

set_option maxRecDepth 4000 in
lemma oscChunk5x : (UnderDampedScalar.steps (oscS80) (1 / 60) 20).x - oscS100.x = 0 := by
  with_unfolding_all decide

set_option maxRecDepth 4000 in
lemma oscChunk5v : (UnderDampedScalar.steps (oscS80) (1 / 60) 20).v - oscS100.v = 0 := by
  with_unfolding_all decide

lemma oscChunk5 : UnderDampedScalar.steps (oscS80) (1 / 60) 20 = oscS100 :=
  UnderDampedScalar.ext2 (sub_eq_zero.mp oscChunk5x) (sub_eq_zero.mp oscChunk5v)

set_option maxRecDepth 4000 in
lemma oscChunk6x : (UnderDampedScalar.steps (oscS100) (1 / 60) 20).x - oscS120.x = 0 := by
  with_unfolding_all decide

set_option maxRecDepth 4000 in
lemma oscChunk6v : (UnderDampedScalar.steps (oscS100) (1 / 60) 20).v - oscS120.v = 0 := by
  with_unfolding_all decide

lemma oscChunk6 : UnderDampedScalar.steps (oscS100) (1 / 60) 20 = oscS120 :=
  UnderDampedScalar.ext2 (sub_eq_zero.mp oscChunk6x) (sub_eq_zero.mp oscChunk6v)

set_option maxRecDepth 4000 in
lemma oscChunk7x : (UnderDampedScalar.steps (oscS120) (1 / 60) 20).x - oscS140.x = 0 := by
  with_unfolding_all decide

set_option maxRecDepth 4000 in
lemma oscChunk7v : (UnderDampedScalar.steps (oscS120) (1 / 60) 20).v - oscS140.v = 0 := by
  with_unfolding_all decide

lemma oscChunk7 : UnderDampedScalar.steps (oscS120) (1 / 60) 20 = oscS140 :=
  UnderDampedScalar.ext2 (sub_eq_zero.mp oscChunk7x) (sub_eq_zero.mp oscChunk7v)

set_option maxRecDepth 4000 in
lemma oscChunk8x : (UnderDampedScalar.steps (oscS140) (1 / 60) 20).x - oscS160.x = 0 := by
  with_unfolding_all decide

set_option maxRecDepth 4000 in
lemma oscChunk8v : (UnderDampedScalar.steps (oscS140) (1 / 60) 20).v - oscS160.v = 0 := by
  with_unfolding_all decide

lemma oscChunk8 : UnderDampedScalar.steps (oscS140) (1 / 60) 20 = oscS160 :=
  UnderDampedScalar.ext2 (sub_eq_zero.mp oscChunk8x) (sub_eq_zero.mp oscChunk8v)

set_option maxRecDepth 4000 in
lemma oscChunk9x : (UnderDampedScalar.steps oscS160 (1 / 60) 20).x - 0 = 0 := by
  with_unfolding_all decide

set_option maxRecDepth 4000 in
lemma oscChunk9v : (UnderDampedScalar.steps oscS160 (1 / 60) 20).v - 0 = 0 := by
  with_unfolding_all decide

lemma oscChunk9 : UnderDampedScalar.steps oscS160 (1 / 60) 20 = ⟨0, 0⟩ :=
  UnderDampedScalar.ext2 (sub_eq_zero.mp oscChunk9x) (sub_eq_zero.mp oscChunk9v)

lemma oscZeroStep (dt : ℚ) : UnderDampedScalar.step ⟨0, 0⟩ dt = ⟨0, 0⟩ := by
  simp [UnderDampedScalar.step]

lemma oscZeroSteps (dt : ℚ) (n : ℕ) : UnderDampedScalar.steps ⟨0, 0⟩ dt n = ⟨0, 0⟩ := by
  induction n with
  | zero => rfl
  | succ n ih => rw [UnderDampedScalar.steps, ih, oscZeroStep]

/-- C9: after every oscillator step, if both `|x|` and `|v|` are below
their deadzone thresholds (`1e-4`, `1e-3`) then the state is exactly
`⟨0, 0⟩`; and the oscillator kicked once with impulse `5` from rest then
stepped `500` times at `dt = 1/60` with the default damping ends with
`x` and `v` exactly `0`. -/
theorem claim_C9 :
    (∀ (s : UnderDampedScalar) (dt : ℚ),
      |(s.step dt).x| < 1 / 10000 → |(s.step dt).v| < 1 / 1000 →
        s.step dt = ⟨0, 0⟩) ∧
    (UnderDampedScalar.steps (UnderDampedScalar.kick ⟨0, 0⟩ 5) (1 / 60) 500 = ⟨0, 0⟩) := by
  constructor
  · intro s dt
    simp only [UnderDampedScalar.step]
    split
    · intro _ _; rfl
    · intro hx hv
      rename_i hc
      exact absurd ⟨hx, hv⟩ hc
  · have h : (500 : ℕ) =
        20 + (20 + (20 + (20 + (20 + (20 + (20 + (20 + (20 + 320)))))))) := by norm_num
    rw [h, UnderDampedScalar.steps_add, oscChunk1, UnderDampedScalar.steps_add, oscChunk2,
      UnderDampedScalar.steps_add, oscChunk3, UnderDampedScalar.steps_add, oscChunk4,
      UnderDampedScalar.steps_add, oscChunk5, UnderDampedScalar.steps_add, oscChunk6,
      UnderDampedScalar.steps_add, oscChunk7, UnderDampedScalar.steps_add, oscChunk8,
      UnderDampedScalar.steps_add, oscChunk9, oscZeroSteps]

/-- Witness for C9's first component at a concrete state: stepping the
rest state keeps it at exact zero. -/
theorem claim_C9_witness :
    (|((UnderDampedScalar.mk 0 0).step (1 / 60)).x| < 1 / 10000 ∧
      |((UnderDampedScalar.mk 0 0).step (1 / 60)).v| < 1 / 1000) ∧
    (UnderDampedScalar.mk 0 0).step (1 / 60) = ⟨0, 0⟩ :=
  ⟨by with_unfolding_all decide,
    claim_C9.1 ⟨0, 0⟩ (1 / 60) (by with_unfolding_all decide) (by with_unfolding_all decide)⟩

-- --------------------------------------------------------------------
-- C3: the quality scalar stays in `[qualityMin, 1]` and moves
-- monotonically toward the target without overshoot
-- --------------------------------------------------------------------

lemma perfTarget_le_one (ema1 dist : ℚ) : perfTarget ema1 dist ≤ 1 := by
  unfold perfTarget
  have h0 : (0 : ℚ) ≤ clamp (frameWeight * clamp ((ema1 - targetFrameMs) / max (1 / 10000) framePressureWindowMs) 0 1 + distanceWeight * clamp (dist / max (1 / 10000) distanceNormPx) 0 1) 0 1 :=
    lo_le_clamp (by norm_num)
  have : (0 : ℚ) ≤ 1 - qualityMin := by norm_num [qualityMin]
  nlinarith

lemma qualityMin_le_perfTarget (ema1 dist : ℚ) : qualityMin ≤ perfTarget ema1 dist := by
  unfold perfTarget
  have h1 : clamp (frameWeight * clamp ((ema1 - targetFrameMs) / max (1 / 10000) framePressureWindowMs) 0 1 + distanceWeight * clamp (dist / max (1 / 10000) distanceNormPx) 0 1) 0 1 ≤ 1 :=
    clamp_le_hi
  have : (0 : ℚ) ≤ 1 - qualityMin := by norm_num [qualityMin]
  nlinarith

lemma perfTick_q_mem (s : PerfState) (dtSec dist : ℚ) :
    qualityMin ≤ (perfTick s dtSec dist).q ∧ (perfTick s dtSec dist).q ≤ 1 := by
  unfold perfTick
  exact ⟨lo_le_clamp (by norm_num [qualityMin]), clamp_le_hi⟩

/-- C3: for every sequence of frame times and motion distances the
quality scalar stays within `[qualityMin, 1]` after each tick, and on
each tick it moves monotonically toward the computed target without
overshooting: toward a lower target it decreases by at most
`degradeRatePerSec·dt` and never below the target, toward a higher
target it increases by at most `recoverRatePerSec·dt` and never above
the target. -/
theorem claim_C3 :
    (∀ (frames : List (ℚ × ℚ)) (s : PerfState),
      qualityMin ≤ s.q → s.q ≤ 1 →
        qualityMin ≤ (perfRun s frames).q ∧ (perfRun s frames).q ≤ 1) ∧
    (∀ (s : PerfState) (dtSec dist : ℚ), 0 ≤ dtSec → qualityMin ≤ s.q → s.q ≤ 1 →
      (perfTarget (lerp s.ema (dtSec * 1000) emaAlpha) dist < s.q →
        perfTarget (lerp s.ema (dtSec * 1000) emaAlpha) dist ≤ (perfTick s dtSec dist).q ∧
        (perfTick s dtSec dist).q ≤ s.q ∧
        s.q - degradeRatePerSec * dtSec ≤ (perfTick s dtSec dist).q) ∧
      (s.q ≤ perfTarget (lerp s.ema (dtSec * 1000) emaAlpha) dist →
        s.q ≤ (perfTick s dtSec dist).q ∧
        (perfTick s dtSec dist).q ≤ perfTarget (lerp s.ema (dtSec * 1000) emaAlpha) dist ∧
        (perfTick s dtSec dist).q ≤ s.q + recoverRatePerSec * dtSec)) := by
  constructor
  · intro frames
    induction frames with
    | nil => intro s h1 h2; exact ⟨h1, h2⟩
    | cons f rest ih =>
      intro s _ _
      have h := perfTick_q_mem s f.1 f.2
      exact ih (perfTick s f.1 f.2) h.1 h.2
  · intro s dtSec dist hdt hq1 hq2
    set t := perfTarget (lerp s.ema (dtSec * 1000) emaAlpha) dist with ht
    have htmin : qualityMin ≤ t := qualityMin_le_perfTarget _ _
    have htmax : t ≤ 1 := perfTarget_le_one _ _
    constructor
    · intro hlt
      have hq' : (perfTick s dtSec dist).q = max t (s.q - degradeRatePerSec * dtSec) := by
        simp only [perfTick]
        rw [← ht, if_pos hlt]
        have hd : (0 : ℚ) ≤ degradeRatePerSec * dtSec :=
          mul_nonneg (by norm_num [degradeRatePerSec]) hdt
        exact clamp_eq_self (le_trans htmin (le_max_left _ _))
          (max_le (le_trans (le_of_lt hlt) hq2) (by linarith))
      have hd : (0 : ℚ) ≤ degradeRatePerSec * dtSec :=
        mul_nonneg (by norm_num [degradeRatePerSec]) hdt
      rw [hq']
      refine ⟨le_max_left _ _, max_le (le_of_lt hlt) (by linarith), le_max_right _ _⟩
    · intro hge
      have hnlt : ¬ t < s.q := not_lt.mpr hge
      have hq' : (perfTick s dtSec dist).q = min t (s.q + recoverRatePerSec * dtSec) := by
        simp only [perfTick]
        rw [← ht, if_neg hnlt]
        have hr : (0 : ℚ) ≤ recoverRatePerSec * dtSec :=
          mul_nonneg (by norm_num [recoverRatePerSec]) hdt
        exact clamp_eq_self (le_min htmin (by linarith)) (le_trans (min_le_left _ _) htmax)
      have hr : (0 : ℚ) ≤ recoverRatePerSec * dtSec :=
        mul_nonneg (by norm_num [recoverRatePerSec]) hdt
      rw [hq']
      refine ⟨le_min hge (by linarith), min_le_left _ _, min_le_right _ _⟩

-- --------------------------------------------------------------------
-- Trail store lemmas shared by C1, C4, C5, C10
-- --------------------------------------------------------------------

lemma capTrail_length_le (cfg : TrailCfg) (t : List TrailSample) :
    (capTrail cfg t).length ≤ cfg.maxRects ∨ capTrail cfg t = t := by
  unfold capTrail
  split
  · left
    rename_i hlt
    rw [List.length_drop]
    omega
  · right; rfl

lemma capTrail_length_le' (cfg : TrailCfg) (t : List TrailSample) :
    (capTrail cfg t).length ≤ cfg.maxRects := by
  unfold capTrail
  split
  · rename_i hlt
    rw [List.length_drop]
    omega
  · rename_i hge
    omega

lemma capTrail_suffix (cfg : TrailCfg) (t : List TrailSample) : capTrail cfg t <:+ t := by
  unfold capTrail
  split
  · exact List.drop_suffix _ _
  · exact List.suffix_refl _

lemma entryFold_valid (sq : ℚ → ℚ) (cfg : TrailCfg) (lpPts ptsF : List Point) (tp : Option Point)
    (stampMs : ℚ) (segs : ℤ) (L : List ℕ) (acc : List TrailSample × List Point × Bool)
    (hacc : ∀ s ∈ acc.1, isValidTrailPolygon s.pts = true) :
    ∀ s ∈ (L.foldl (entryStep sq cfg lpPts ptsF tp stampMs segs) acc).1,
      isValidTrailPolygon s.pts = true := by
  induction L generalizing acc with
  | nil => exact hacc
  | cons i L ih =>
    refine ih _ ?_
    by_cases hval : isValidTrailPolygon (entryPts sq cfg lpPts ptsF acc.2.1 tp i segs) = true
    · intro s hs
      simp only [entryStep, if_pos hval] at hs
      rcases List.mem_append.mp hs with h | h
      · exact hacc s h
      · rcases List.mem_singleton.mp h with rfl
        exact hval
    · intro s hs
      simp only [entryStep, if_neg hval] at hs
      exact hacc s hs

lemma entryLoop_valid (sq : ℚ → ℚ) (cfg : TrailCfg) (lpPts ptsF : List Point) (tp : Option Point)
    (stampMs : ℚ) (segs : ℤ) :
    ∀ s ∈ (entryLoop sq cfg lpPts ptsF tp stampMs segs).1, isValidTrailPolygon s.pts = true :=
  entryFold_valid sq cfg lpPts ptsF tp stampMs segs _ _ (by intro s hs; cases hs)

/-- Every push either rejects (returning the state unchanged) or appends
a list of validated samples and caps the buffer. -/
lemma push_result (sq : ℚ → ℚ) (cfg : TrailCfg) (st : TrailState) (poly : List Point)
    (tp : Option Point) (stampMs perfQuality : ℚ) :
    pushTrailPolygon sq cfg st poly tp stampMs perfQuality = st ∨
    ∃ ap : List TrailSample, (∀ s ∈ ap, isValidTrailPolygon s.pts = true) ∧
      (pushTrailPolygon sq cfg st poly tp stampMs perfQuality).trail = capTrail cfg (st.trail ++ ap) := by
  unfold pushTrailPolygon
  by_cases h1 : poly.length < 3
  · left; rw [if_pos h1]
  · rw [if_neg h1]
    by_cases h2 : ¬ isValidTrailPolygon (pushStage1 sq cfg (st.lastPushed.map TrailSample.pts) poly tp) = true
    · left; rw [if_pos h2]
    · rw [if_neg h2]
      rcases hlp : st.lastPushed with _ | lp
      · right
        simp only [hlp] at h2 ⊢
        refine ⟨_, ?_, rfl⟩
        intro s hs
        rcases List.mem_singleton.mp hs with rfl
        exact not_not.mp h2
      · simp only [hlp, Option.map_some'] at h2 ⊢
        by_cases h3 : ¬ isValidTrailPolygon (pushStage2 sq cfg lp (pushStage1 sq cfg (some lp.pts) poly tp) tp) = true
        · left
          rw [if_pos h3]
        · rw [if_neg h3]
          by_cases h4 : interpMetricOf sq lp (pushStage2 sq cfg lp (pushStage1 sq cfg (some lp.pts) poly tp) tp) < moveThreshold cfg
          · left
            rw [if_pos (by simpa using h4)]
          · rw [if_neg (by simpa using h4)]
            right
            exact ⟨_, entryLoop_valid sq cfg lp.pts _ tp stampMs _, rfl⟩

/-- C10: atomicity on rejection.  If the input polygon has fewer than 3
points, or the processed polygon fails the validity check at either
stage, or the movement metric is below the minimum-motion threshold,
`pushTrailPolygon` returns the state (trail buffer and last-pushed
sample) completely unchanged. -/
theorem claim_C10 (sq : ℚ → ℚ) (cfg : TrailCfg) (st : TrailState) (poly : List Point)
    (tp : Option Point) (stampMs perfQuality : ℚ)
    (h : poly.length < 3
      ∨ isValidTrailPolygon (pushStage1 sq cfg (st.lastPushed.map TrailSample.pts) poly tp) = false
      ∨ (∃ lp, st.lastPushed = some lp ∧
          isValidTrailPolygon (pushStage2 sq cfg lp (pushStage1 sq cfg (some lp.pts) poly tp) tp) = false)
      ∨ (∃ lp, st.lastPushed = some lp ∧
          interpMetricOf sq lp (pushStage2 sq cfg lp (pushStage1 sq cfg (some lp.pts) poly tp) tp) < moveThreshold cfg)) :
    pushTrailPolygon sq cfg st poly tp stampMs perfQuality = st := by
  unfold pushTrailPolygon
  by_cases h1 : poly.length < 3
  · rw [if_pos h1]
  · rw [if_neg h1]
    by_cases h2 : ¬ isValidTrailPolygon (pushStage1 sq cfg (st.lastPushed.map TrailSample.pts) poly tp) = true
    · rw [if_pos h2]
    · rw [if_neg h2]
      have h2' : isValidTrailPolygon (pushStage1 sq cfg (st.lastPushed.map TrailSample.pts) poly tp) = true :=
        not_not.mp h2
      rcases hlp : st.lastPushed with _ | lp
      · rcases h with h | h | ⟨lp, hl, _⟩ | ⟨lp, hl, _⟩
        · exact absurd h h1
        · rw [h] at h2'; cases h2'
        · rw [hlp] at hl; cases hl
        · rw [hlp] at hl; cases hl
      · simp only [hlp, Option.map_some'] at h2 h2' h ⊢
        by_cases h3 : ¬ isValidTrailPolygon (pushStage2 sq cfg lp (pushStage1 sq cfg (some lp.pts) poly tp) tp) = true
        · rw [if_pos h3]
        · rw [if_neg h3]
          have h3' : isValidTrailPolygon (pushStage2 sq cfg lp (pushStage1 sq cfg (some lp.pts) poly tp) tp) = true :=
            not_not.mp h3
          rcases h with h | h | ⟨lp', hl, hv⟩ | ⟨lp', hl, hm⟩
          · exact absurd h h1
          · rw [h] at h2'; cases h2'
          · injection hl with hl
            subst hl
            rw [hv] at h3'; cases h3'
          · injection hl with hl
            subst hl
            rw [if_pos (by simpa using hm)]

/-- Witness for C10: pushing a two-point polygon leaves a concrete state
unchanged. -/
theorem claim_C10_witness :
    ([(⟨0, 0⟩ : Point), ⟨1, 0⟩].length < 3 ∨
      isValidTrailPolygon (pushStage1 ratSqrt defaultCfg ((trailInit).lastPushed.map TrailSample.pts) [⟨0, 0⟩, ⟨1, 0⟩] none) = false ∨
      (∃ lp, trailInit.lastPushed = some lp ∧
        isValidTrailPolygon (pushStage2 ratSqrt defaultCfg lp (pushStage1 ratSqrt defaultCfg (some lp.pts) [⟨0, 0⟩, ⟨1, 0⟩] none) none) = false) ∨
      (∃ lp, trailInit.lastPushed = some lp ∧
        interpMetricOf ratSqrt lp (pushStage2 ratSqrt defaultCfg lp (pushStage1 ratSqrt defaultCfg (some lp.pts) [⟨0, 0⟩, ⟨1, 0⟩] none) none) < moveThreshold defaultCfg)) ∧
    pushTrailPolygon ratSqrt defaultCfg trailInit [⟨0, 0⟩, ⟨1, 0⟩] none 0 1 = trailInit :=
  ⟨Or.inl (by decide),
    claim_C10 ratSqrt defaultCfg trailInit [⟨0, 0⟩, ⟨1, 0⟩] none 0 1 (Or.inl (by decide))⟩

-- --------------------------------------------------------------------
-- C1: every stored sample has a valid (≥3-vertex, non-self-intersecting)
-- polygon
-- --------------------------------------------------------------------

lemma applyOp_valid (sq : ℚ → ℚ) (cfg : TrailCfg) (st : TrailState) (op : TrailOp)
    (h : TrailValidInv st) : TrailValidInv (applyOp sq cfg st op) := by
  cases op with
  | push poly tp stampMs q =>
    rcases push_result sq cfg st poly tp stampMs q with heq | ⟨ap, hap, htr⟩
    · intro s hs
      have hs' : s ∈ (pushTrailPolygon sq cfg st poly tp stampMs q).trail := hs
      rw [heq] at hs'
      exact h s hs'
    · intro s hs
      have hs' : s ∈ (pushTrailPolygon sq cfg st poly tp stampMs q).trail := hs
      rw [htr] at hs'
      have hs'' := (capTrail_suffix cfg _).subset hs'
      rcases List.mem_append.mp hs'' with h' | h'
      · exact h s h'
      · exact hap s h'
  | prune now =>
    intro s hs
    exact h s (List.mem_of_mem_filter hs)

lemma runOps_valid (sq : ℚ → ℚ) (cfg : TrailCfg) (ops : List TrailOp) (st : TrailState)
    (h : TrailValidInv st) : TrailValidInv (runOps sq cfg st ops) := by
  induction ops generalizing st with
  | nil => exact h
  | cons op ops ih => exact ih _ (applyOp_valid sq cfg st op h)

/-- C1: starting from the empty trail store, after any sequence of
`pushTrailPolygon`/`pruneTrail` operations every sample in the trail
buffer — the first-ever sample and every interpolated intermediate
sample alike — has at least 3 vertices and passes the self-intersection
check; no operation ever stores a self-intersecting or degenerate
polygon. -/
theorem claim_C1 (sq : ℚ → ℚ) (cfg : TrailCfg) (ops : List TrailOp) :
    ((runOps sq cfg trailInit ops).trail.all
      fun s => decide (3 ≤ s.pts.length) && !isSelfIntersectingPolygon s.pts) = true := by
  rw [List.all_eq_true]
  intro s hs
  exact runOps_valid sq cfg ops trailInit (by intro s hs; cases hs) s hs

-- --------------------------------------------------------------------
-- C4: buffer cap (FIFO) and TTL pruning
-- --------------------------------------------------------------------

lemma applyOp_length (sq : ℚ → ℚ) (cfg : TrailCfg) (st : TrailState) (op : TrailOp)
    (h : st.trail.length ≤ cfg.maxRects) :
    (applyOp sq cfg st op).trail.length ≤ cfg.maxRects := by
  cases op with
  | push poly tp stampMs q =>
    rcases push_result sq cfg st poly tp stampMs q with heq | ⟨ap, _, htr⟩
    · show (pushTrailPolygon sq cfg st poly tp stampMs q).trail.length ≤ cfg.maxRects
      rw [heq]
      exact h
    · show (pushTrailPolygon sq cfg st poly tp stampMs q).trail.length ≤ cfg.maxRects
      rw [htr]
      exact capTrail_length_le' cfg _
  | prune now =>
    exact le_trans (List.length_filter_le _ _) h

/-- C4: after any sequence of pushes (and prunes) from the empty store
the trail buffer holds at most `maxRects` samples; a push only ever
appends new samples and drops from the front (oldest-first), so the
resulting buffer is a suffix of the old buffer followed by the appended
samples; and after `pruneTrail now` no sample older than `ttlMs`
remains, while the survivors keep their relative order (a sublist of the
original buffer). -/
theorem claim_C4 (sq : ℚ → ℚ) (cfg : TrailCfg) :
    (∀ ops : List TrailOp, (runOps sq cfg trailInit ops).trail.length ≤ cfg.maxRects) ∧
    (∀ (st : TrailState) (poly : List Point) (tp : Option Point) (stampMs perfQuality : ℚ),
      ∃ ap : List TrailSample,
        (pushTrailPolygon sq cfg st poly tp stampMs perfQuality).trail <:+ st.trail ++ ap) ∧
    (∀ (st : TrailState) (now : ℚ),
      ((pruneTrail cfg st now).trail.all fun s => decide (now - s.t ≤ cfg.ttlMs)) = true ∧
      (pruneTrail cfg st now).trail.Sublist st.trail) := by
  refine ⟨?_, ?_, ?_⟩
  · intro ops
    have : ∀ (l : List TrailOp) (st : TrailState), st.trail.length ≤ cfg.maxRects →
        (runOps sq cfg st l).trail.length ≤ cfg.maxRects := by
      intro l
      induction l with
      | nil => intro st h; exact h
      | cons op l ih => intro st h; exact ih _ (applyOp_length sq cfg st op h)
    exact this ops trailInit (by simp [trailInit])
  · intro st poly tp stampMs q
    rcases push_result sq cfg st poly tp stampMs q with heq | ⟨ap, _, htr⟩
    · exact ⟨[], by rw [heq, List.append_nil]⟩
    · exact ⟨ap, htr ▸ capTrail_suffix cfg _⟩
  · intro st now
    constructor
    · rw [List.all_eq_true]
      intro s hs
      have := List.of_mem_filter hs
      simp only [decide_not] at this
      simpa using this
    · exact List.filter_sublist _

/-- Witness for C3 at a concrete state and tick. -/
theorem claim_C3_witness :
    ((0 : ℚ) ≤ 1 / 60 ∧ qualityMin ≤ (1 : ℚ) ∧ (1 : ℚ) ≤ 1 ∧
      qualityMin ≤ (perfRun perfInit [(1 / 60, 200)]).q ∧ (perfRun perfInit [(1 / 60, 200)]).q ≤ 1) ∧
    (perfInit.q ≤ perfTarget (lerp perfInit.ema ((1 / 60 : ℚ) * 1000) emaAlpha) 0 →
      perfInit.q ≤ (perfTick perfInit (1 / 60) 0).q ∧
      (perfTick perfInit (1 / 60) 0).q ≤ perfTarget (lerp perfInit.ema ((1 / 60 : ℚ) * 1000) emaAlpha) 0 ∧
      (perfTick perfInit (1 / 60) 0).q ≤ perfInit.q + recoverRatePerSec * (1 / 60)) :=
  ⟨⟨by norm_num, by norm_num [qualityMin], by norm_num,
      (claim_C3.1 [(1 / 60, 200)] perfInit (by norm_num [perfInit, qualityMin]) (by norm_num [perfInit]))⟩,
    (claim_C3.2 perfInit (1 / 60) 0 (by norm_num) (by norm_num [perfInit, qualityMin]) (by norm_num [perfInit])).2⟩

-- --------------------------------------------------------------------
-- C5: interpolation segment count and appended entries
-- --------------------------------------------------------------------

lemma segmentsOf_pos (cfg : TrailCfg) (perfQuality metric : ℚ) :
    1 ≤ segmentsOf cfg perfQuality metric :=
  le_min (le_max_left _ _) (le_max_left _ _)

lemma entryLoop_ideal (sq : ℚ → ℚ) (cfg : TrailCfg) (lpPts ptsF : List Point) (tp : Option Point)
    (stampMs : ℚ) (segs : ℤ) (m : ℕ)
    (hv : ∀ k < m, isValidTrailPolygon (idealEntry sq cfg lpPts ptsF tp segs (k + 1)) = true) :
    ((List.range m).map fun i => i + 1).foldl (entryStep sq cfg lpPts ptsF tp stampMs segs)
      ([], lpPts, false)
    = ((List.range m).map fun i => idealSample sq cfg lpPts ptsF tp stampMs segs (i + 1),
        idealEntry sq cfg lpPts ptsF tp segs m,
        if m = 0 then false else true) := by
  induction m with
  | zero => rfl
  | succ m ih =>
    rw [List.range_succ, List.map_append, List.map_append, List.foldl_append,
      ih (fun k hk => hv k (Nat.lt_succ_of_lt hk))]
    simp only [List.map_cons, List.map_nil, List.foldl_cons, List.foldl_nil]
    have he : entryPts sq cfg lpPts ptsF (idealEntry sq cfg lpPts ptsF tp segs m) tp
        (m + 1) segs = idealEntry sq cfg lpPts ptsF tp segs (m + 1) := rfl
    show entryStep sq cfg lpPts ptsF tp stampMs segs _ _ = _
    unfold entryStep
    simp only [he]
    rw [if_pos (hv m (Nat.lt_succ_self m))]
    rfl

/-- C5: when a push passes the minimum-motion check (the input has ≥3
points, both processing stages produce valid polygons, the metric is at
least the threshold, and every generated intermediate entry is valid),
`pushTrailPolygon` appends exactly
`segments = min(max 1 (round (maxInterpPerPush·quality)), max 1 ⌈metric/adaptiveStep⌉)`
intermediate samples, in order, between the previous stored sample and
the new processed polygon (the `idealEntry` lerp chain), all carrying
the same timestamp, and the last of them becomes the last-pushed
sample. -/
theorem claim_C5 (sq : ℚ → ℚ) (cfg : TrailCfg) (st : TrailState) (lp : TrailSample)
    (poly : List Point) (tp : Option Point) (stampMs perfQuality : ℚ)
    (hlp : st.lastPushed = some lp)
    (hlen : ¬ poly.length < 3)
    (h2 : isValidTrailPolygon (pushStage1 sq cfg (some lp.pts) poly tp) = true)
    (h3 : isValidTrailPolygon (processedPush sq cfg lp poly tp) = true)
    (hm : ¬ pushMetricOf sq cfg lp poly tp < moveThreshold cfg)
    (hv : ∀ k < (segmentsOf cfg perfQuality (pushMetricOf sq cfg lp poly tp)).toNat,
      isValidTrailPolygon (idealEntry sq cfg lp.pts (processedPush sq cfg lp poly tp) tp
        (segmentsOf cfg perfQuality (pushMetricOf sq cfg lp poly tp)) (k + 1)) = true) :
    ∃ entries : List TrailSample,
      entries = (List.range (segmentsOf cfg perfQuality (pushMetricOf sq cfg lp poly tp)).toNat).map
        (fun i => idealSample sq cfg lp.pts (processedPush sq cfg lp poly tp) tp stampMs
          (segmentsOf cfg perfQuality (pushMetricOf sq cfg lp poly tp)) (i + 1)) ∧
      entries.length = (segmentsOf cfg perfQuality (pushMetricOf sq cfg lp poly tp)).toNat ∧
      segmentsOf cfg perfQuality (pushMetricOf sq cfg lp poly tp)
        = min (max 1 (round (cfg.maxInterpPerPush * perfQuality)))
            (max 1 ⌈pushMetricOf sq cfg lp poly tp / adaptiveStepOf cfg perfQuality⌉) ∧
      (∀ s ∈ entries, s.t = stampMs) ∧
      pushTrailPolygon sq cfg st poly tp stampMs perfQuality
        = ⟨capTrail cfg (st.trail ++ entries), (st.trail ++ entries).getLast?⟩ := by
  refine ⟨_, rfl, by rw [List.length_map, List.length_range], rfl, ?_, ?_⟩
  · intro s hs
    rcases List.mem_map.mp hs with ⟨i, _, rfl⟩
    rfl
  · have h3' : isValidTrailPolygon
        (pushStage2 sq cfg lp (pushStage1 sq cfg (some lp.pts) poly tp) tp) = true := h3
    have hm' : ¬ interpMetricOf sq lp
        (pushStage2 sq cfg lp (pushStage1 sq cfg (some lp.pts) poly tp) tp) < moveThreshold cfg := hm
    have hv' : ∀ k < (segmentsOf cfg perfQuality (interpMetricOf sq lp
          (pushStage2 sq cfg lp (pushStage1 sq cfg (some lp.pts) poly tp) tp))).toNat,
        isValidTrailPolygon (idealEntry sq cfg lp.pts
          (pushStage2 sq cfg lp (pushStage1 sq cfg (some lp.pts) poly tp) tp) tp
          (segmentsOf cfg perfQuality (interpMetricOf sq lp
            (pushStage2 sq cfg lp (pushStage1 sq cfg (some lp.pts) poly tp) tp))) (k + 1)) = true := hv
    have hm0 : (segmentsOf cfg perfQuality (interpMetricOf sq lp
        (pushStage2 sq cfg lp (pushStage1 sq cfg (some lp.pts) poly tp) tp))).toNat ≠ 0 := by
      have := segmentsOf_pos cfg perfQuality (interpMetricOf sq lp
        (pushStage2 sq cfg lp (pushStage1 sq cfg (some lp.pts) poly tp) tp))
      omega
    have hloop := entryLoop_ideal sq cfg lp.pts
      (pushStage2 sq cfg lp (pushStage1 sq cfg (some lp.pts) poly tp) tp) tp stampMs
      (segmentsOf cfg perfQuality (interpMetricOf sq lp
        (pushStage2 sq cfg lp (pushStage1 sq cfg (some lp.pts) poly tp) tp)))
      (segmentsOf cfg perfQuality (interpMetricOf sq lp
        (pushStage2 sq cfg lp (pushStage1 sq cfg (some lp.pts) poly tp) tp))).toNat hv'
    unfold pushTrailPolygon
    rw [if_neg hlen]
    rw [if_neg (by simp only [hlp, Option.map_some']; exact not_not_intro h2)]
    simp only [hlp, Option.map_some']
    rw [if_neg (not_not_intro h3')]
    rw [if_neg hm']
    unfold entryLoop
    rw [hloop]
    rw [if_neg hm0]
    rfl

set_option maxRecDepth 20000 in
/-- Witness for C5: a 200 px center move of an axis-aligned square with
`maxInterpPerPush = 4` and `perfQuality = 1` appends exactly 4
intermediate samples. -/
theorem claim_C5_witness :
    (pushSt0.lastPushed = some lpSample0 ∧ ¬ movedSquare.length < 3 ∧
      (segmentsOf defaultCfg 1 (pushMetricOf ratSqrt defaultCfg lpSample0 movedSquare none)).toNat = 4) ∧
    ∃ entries : List TrailSample,
      entries = (List.range (segmentsOf defaultCfg 1 (pushMetricOf ratSqrt defaultCfg lpSample0 movedSquare none)).toNat).map
        (fun i => idealSample ratSqrt defaultCfg lpSample0.pts (processedPush ratSqrt defaultCfg lpSample0 movedSquare none) none 1000
          (segmentsOf defaultCfg 1 (pushMetricOf ratSqrt defaultCfg lpSample0 movedSquare none)) (i + 1)) ∧
      entries.length = (segmentsOf defaultCfg 1 (pushMetricOf ratSqrt defaultCfg lpSample0 movedSquare none)).toNat ∧
      segmentsOf defaultCfg 1 (pushMetricOf ratSqrt defaultCfg lpSample0 movedSquare none)
        = min (max 1 (round (defaultCfg.maxInterpPerPush * 1)))
            (max 1 ⌈pushMetricOf ratSqrt defaultCfg lpSample0 movedSquare none / adaptiveStepOf defaultCfg 1⌉) ∧
      (∀ s ∈ entries, s.t = 1000) ∧
      pushTrailPolygon ratSqrt defaultCfg pushSt0 movedSquare none 1000 1
        = ⟨capTrail defaultCfg (pushSt0.trail ++ entries), (pushSt0.trail ++ entries).getLast?⟩ :=
  ⟨⟨rfl, by decide, by with_unfolding_all decide⟩,
    claim_C5 ratSqrt defaultCfg pushSt0 lpSample0 movedSquare none 1000 1 rfl (by decide)
      (by with_unfolding_all decide) (by with_unfolding_all decide)
      (by with_unfolding_all decide) (by with_unfolding_all decide)⟩


-- --------------------------------------------------------------------
-- C7: canonicalization is idempotent on already-canonical polygons
-- --------------------------------------------------------------------

theorem insertSorted_perm (le : Point → Point → Bool) (x : Point) (l : List Point) :
    List.Perm (insertSorted le x l) (x :: l) := by
  induction l with
  | nil => exact List.Perm.refl _
  | cons y ys ih =>
    simp only [insertSorted]
    split
    · exact List.Perm.refl _
    · exact (ih.cons y).trans (List.Perm.swap x y ys)

theorem sortByLe_perm (le : Point → Point → Bool) (l : List Point) :
    List.Perm (sortByLe le l) l := by
  induction l with
  | nil => exact List.Perm.refl _
  | cons a t ih =>
    show List.Perm (insertSorted le a (sortByLe le t)) (a :: t)
    exact (insertSorted_perm le a (sortByLe le t)).trans (ih.cons a)

theorem sortPolygonByAngle_perm (pts : List Point) :
    List.Perm (sortPolygonByAngle pts) pts := by
  unfold sortPolygonByAngle
  split
  · exact List.Perm.refl _
  · exact sortByLe_perm _ _

theorem polygonCenter_perm {l l' : List Point} (h : List.Perm l l') :
    polygonCenter l = polygonCenter l' := by
  unfold polygonCenter
  rw [h.length_eq, (h.map Point.x).sum_eq, (h.map Point.y).sum_eq]

theorem insertSorted_head_mem (le : Point → Point → Bool) (x : Point) (l : List Point)
    (z : Point) (hz : z ∈ (insertSorted le x l).head?) : z = x ∨ z ∈ l.head? := by
  cases l with
  | nil =>
    left
    simpa [insertSorted, Option.mem_def, eq_comm] using hz
  | cons y ys =>
    simp only [insertSorted] at hz
    split at hz
    · left
      simpa [Option.mem_def, eq_comm] using hz
    · right
      simpa [Option.mem_def] using hz

theorem insertSorted_chain (le : Point → Point → Bool)
    (htot : ∀ p q, le p q = true ∨ le q p = true) (x : Point) :
    ∀ l : List Point, List.Chain' (fun p q => le p q = true) l →
      List.Chain' (fun p q => le p q = true) (insertSorted le x l) := by
  intro l
  induction l with
  | nil => intro _; simp [insertSorted]
  | cons y ys ih =>
    intro hl
    simp only [insertSorted]
    split
    · rename_i h
      exact List.chain'_cons.mpr ⟨h, hl⟩
    · rename_i h
      have hyx : le y x = true := (htot x y).resolve_left h
      refine List.chain'_cons'.mpr ⟨?_, ih hl.tail⟩
      intro z hz
      rcases insertSorted_head_mem le x ys z hz with rfl | hzy
      · exact hyx
      · exact (List.chain'_cons'.mp hl).1 z hzy

theorem sortByLe_chain (le : Point → Point → Bool)
    (htot : ∀ p q, le p q = true ∨ le q p = true) (l : List Point) :
    List.Chain' (fun p q => le p q = true) (sortByLe le l) := by
  induction l with
  | nil => exact List.chain'_nil
  | cons a t ih =>
    show List.Chain' _ (insertSorted le a (sortByLe le t))
    exact insertSorted_chain le htot a _ ih

theorem sortByLe_chain_id (le : Point → Point → Bool) :
    ∀ l : List Point, List.Chain' (fun p q => le p q = true) l → sortByLe le l = l := by
  intro l
  induction l with
  | nil => intro _; rfl
  | cons a t ih =>
    intro hl
    show insertSorted le a (sortByLe le t) = a :: t
    rw [ih hl.tail]
    cases t with
    | nil => rfl
    | cons y ys =>
      have h : le a y = true := (List.chain'_cons.mp hl).1
      simp [insertSorted, h]

theorem angLeb_total (c p q : Point) : angLeb c p q = true ∨ angLeb c q p = true := by
  by_cases h1 : angLtb c p q = true
  · left; simp [angLeb, h1]
  · by_cases h2 : angLtb c q p = true
    · right; simp [angLeb, h2]
    · rcases lt_trichotomy (dist2 p c) (dist2 q c) with h | h | h
      · left; simp [angLeb, h1, h2, h]
      · rcases lt_trichotomy p.y q.y with hy | hy | hy
        · left; simp [angLeb, h1, h2, h, hy]
        · rcases le_total p.x q.x with hx | hx
          · left; simp [angLeb, h1, h2, h, hy, hx]
          · right; simp [angLeb, h1, h2, h, hy, hx]
        · right; simp [angLeb, h1, h2, h, hy]
      · right; simp [angLeb, h1, h2, h]

theorem sortPolygonByAngle_idem (pts : List Point) (h3 : ¬ pts.length < 3) :
    sortPolygonByAngle (sortPolygonByAngle pts) = sortPolygonByAngle pts := by
  unfold sortPolygonByAngle
  rw [if_neg h3]
  have hlen : (sortByLe (angLeb (polygonCenter pts)) pts).length = pts.length :=
    (sortByLe_perm _ pts).length_eq
  rw [if_neg (by rw [hlen]; exact h3)]
  rw [polygonCenter_perm (sortByLe_perm (angLeb (polygonCenter pts)) pts)]
  exact sortByLe_chain_id _ _ (sortByLe_chain _ (angLeb_total _) pts)

theorem edgePairs_rotate (l : List Point) (k : ℕ) :
    edgePairs (l.rotate k) = (edgePairs l).rotate k := by
  apply List.ext_getElem
  · simp [edgePairs, List.length_rotate, List.length_zip]
  · intro i h1 h2
    simp only [edgePairs, List.rotate_rotate, List.getElem_rotate, List.getElem_zip,
      List.length_zip, List.length_rotate, Nat.min_self, Nat.mod_add_mod, Prod.mk.injEq]
    trivial

theorem polygonSignedArea_rotate (l : List Point) (k : ℕ) :
    polygonSignedArea (l.rotate k) = polygonSignedArea l := by
  unfold polygonSignedArea
  rw [List.length_rotate]
  split
  · rfl
  · rw [edgePairs_rotate]
    rw [((List.rotate_perm (edgePairs l) k).map
      (fun pq => pq.1.x * pq.2.y - pq.2.x * pq.1.y)).sum_eq]

theorem matchScore_self (sq : ℚ → ℚ) (hsq0 : sq 0 = 0) (l : List Point) :
    matchScore sq l l = 0 := by
  induction l with
  | nil => rfl
  | cons p t ih =>
    show pointDist sq p p + matchScore sq t t = 0
    rw [ih]
    have hd : dist2 p p = 0 := by unfold dist2; ring
    show sq (dist2 p p) + 0 = 0
    rw [hd, hsq0, add_zero]

theorem matchScore_nonneg (sq : ℚ → ℚ) (hnn : ∀ x, 0 ≤ sq x) (a b : List Point) :
    0 ≤ matchScore sq a b := by
  unfold matchScore
  apply List.sum_nonneg
  intro x hx
  obtain ⟨pq, _, rfl⟩ := List.mem_map.mp hx
  exact hnn _

theorem matchScore_zero (sq : ℚ → ℚ) (hnn : ∀ x, 0 ≤ sq x)
    (hpos : ∀ x, 0 < x → 0 < sq x) :
    ∀ a b : List Point, a.length = b.length → matchScore sq a b = 0 → a = b := by
  intro a
  induction a with
  | nil =>
    intro b hb _
    exact (List.length_eq_zero.mp hb.symm).symm
  | cons p t ih =>
    intro b hb h0
    cases b with
    | nil => simp at hb
    | cons q u =>
      have hlen : t.length = u.length := by simpa using hb
      have h0' : sq (dist2 p q) + matchScore sq t u = 0 := h0
      have h1 : 0 ≤ sq (dist2 p q) := hnn _
      have h2 : 0 ≤ matchScore sq t u := matchScore_nonneg sq hnn t u
      have hdz : sq (dist2 p q) = 0 := by linarith
      have hms : matchScore sq t u = 0 := by linarith
      have hdist : dist2 p q = 0 := by
        by_contra hne
        have hgt : 0 < dist2 p q := by
          rcases lt_or_eq_of_le (show (0 : ℚ) ≤ dist2 p q from by
            unfold dist2; positivity) with h | h
          · exact h
          · exact absurd h.symm hne
        exact absurd hdz (ne_of_gt (hpos _ hgt))
      have hpq : p = q := by
        have hx2 : (p.x - q.x) ^ 2 = 0 ∧ (p.y - q.y) ^ 2 = 0 := by
          unfold dist2 at hdist
          constructor <;> nlinarith [sq_nonneg (p.x - q.x), sq_nonneg (p.y - q.y)]
        have hx : p.x = q.x := by
          have := pow_eq_zero_iff (n := 2) (by norm_num) |>.mp hx2.1
          linarith [sub_eq_zero.mp this]
        have hy : p.y = q.y := by
          have := pow_eq_zero_iff (n := 2) (by norm_num) |>.mp hx2.2
          linarith [sub_eq_zero.mp this]
        cases p; cases q
        simp only [Point.mk.injEq]
        exact ⟨hx, hy⟩
      rw [hpq, ih u hlen hms]

theorem pickBest_go (f : List Point → ℚ) :
    ∀ (l : List (List Point)) (b : List Point),
      ∃ b', (l.foldl (fun acc c => match acc with
          | none => some (c, f c)
          | some (p, bs) => if f c < bs then some (c, f c) else some (p, bs))
          (some (b, f b))) = some (b', f b')
        ∧ (b' = b ∨ b' ∈ l) ∧ f b' ≤ f b ∧ ∀ c ∈ l, f b' ≤ f c := by
  intro l
  induction l with
  | nil =>
    intro b
    exact ⟨b, rfl, Or.inl rfl, le_refl _, by simp⟩
  | cons c t ih =>
    intro b
    rw [List.foldl_cons]
    show ∃ b', (t.foldl _ (if f c < f b then some (c, f c) else some (b, f b))) = _ ∧ _
    by_cases h : f c < f b
    · rw [if_pos h]
      obtain ⟨b', h1, h2, h3, h4⟩ := ih c
      refine ⟨b', h1, ?_, h3.trans h.le, ?_⟩
      · rcases h2 with rfl | h2
        · exact Or.inr (List.mem_cons_self _ _)
        · exact Or.inr (List.mem_cons_of_mem c h2)
      · intro d hd
        rcases List.mem_cons.mp hd with rfl | hd
        · exact h3
        · exact h4 d hd
    · rw [if_neg h]
      obtain ⟨b', h1, h2, h3, h4⟩ := ih b
      refine ⟨b', h1, h2.imp id (List.mem_cons_of_mem c), h3, ?_⟩
      intro d hd
      rcases List.mem_cons.mp hd with rfl | hd
      · exact h3.trans (not_lt.mp h)
      · exact h4 d hd

theorem pickBest_spec (f : List Point → ℚ) (l : List (List Point)) (hne : l ≠ []) :
    ∃ b, pickBest f l = some (b, f b) ∧ b ∈ l ∧ ∀ c ∈ l, f b ≤ f c := by
  cases l with
  | nil => exact absurd rfl hne
  | cons c t =>
    obtain ⟨b', h1, h2, h3, h4⟩ := pickBest_go f t c
    refine ⟨b', h1, ?_, ?_⟩
    · rcases h2 with rfl | h2
      · exact List.mem_cons_self _ _
      · exact List.mem_cons_of_mem c h2
    · intro d hd
      rcases List.mem_cons.mp hd with rfl | hd
      · exact h3
      · exact h4 d hd

theorem pickBest_rotations (sq : ℚ → ℚ) (hsq0 : sq 0 = 0) (hsqnn : ∀ x, 0 ≤ sq x)
    (hsqpos : ∀ x, 0 < x → 0 < sq x) (O P : List Point) (k : ℕ)
    (hk : P = O.rotate k) (hn0 : 0 < P.length)
    (bases : List (List Point)) (hmem : O ∈ bases)
    (hblen : ∀ b ∈ bases, b.length = P.length) :
    pickBest (fun c => matchScore sq c P)
        (bases.flatMap fun b => (List.range P.length).map fun off => rotatePolygon b off)
      = some (P, matchScore sq P P) := by
  have hOlen : O.length = P.length := hblen O hmem
  have hPmem : P ∈ bases.flatMap fun b =>
      (List.range P.length).map fun off => rotatePolygon b off := by
    have hkn : k % P.length < P.length := Nat.mod_lt _ hn0
    refine List.mem_flatMap.mpr ⟨O, hmem, List.mem_map.mpr
      ⟨k % P.length, List.mem_range.mpr hkn, ?_⟩⟩
    show rotatePolygon O (k % P.length) = P
    unfold rotatePolygon
    rw [← hOlen, List.rotate_mod, ← hk]
  obtain ⟨b, hpick, hbmem, hmin⟩ := pickBest_spec (fun c => matchScore sq c P) _
    (List.ne_nil_of_mem hPmem)
  have hclen : b.length = P.length := by
    obtain ⟨b0, hb0, hb⟩ := List.mem_flatMap.mp hbmem
    obtain ⟨off, _, rfl⟩ := List.mem_map.mp hb
    show (b0.rotate off).length = P.length
    rw [List.length_rotate, hblen b0 hb0]
  have hble : matchScore sq b P ≤ 0 := by
    have := hmin P hPmem
    rwa [matchScore_self sq hsq0 P] at this
  have h0 : matchScore sq b P = 0 := le_antisymm hble (matchScore_nonneg sq hsqnn b P)
  have hbP : b = P := matchScore_zero sq hsqnn hsqpos b P hclen h0
  rw [hpick, hbP]

theorem matchPolygonToReference_self (sq : ℚ → ℚ) (hsq0 : sq 0 = 0)
    (hsqnn : ∀ x, 0 ≤ sq x) (hsqpos : ∀ x, 0 < x → 0 < sq x) (O P : List Point)
    (hOlen : O.length = P.length) (h3 : ¬ P.length < 3)
    (hidem : sortPolygonByAngle O = O)
    (harea : polygonSignedArea O = polygonSignedArea P)
    (k : ℕ) (hk : P = O.rotate k) :
    matchPolygonToReference sq O P = P := by
  have hn0 : 0 < P.length := by omega
  have hOt : O.take P.length = O := by rw [← hOlen, List.take_length]
  simp only [matchPolygonToReference]
  rw [hOlen, Nat.min_self, if_neg h3, List.take_length, hOt, hidem]
  rw [pickBest_rotations sq hsq0 hsqnn hsqpos O P k hk hn0]
  · -- O is among the searched bases
    split
    · split
      · simp [List.mem_filter, harea]
      · exact List.mem_cons_self _ _
    · exact List.mem_cons_self _ _
  · -- every base has the length of P
    intro b hb
    have hb0 : b ∈ [O, O.reverse] := by
      split at hb
      · split at hb
        · exact List.mem_of_mem_filter hb
        · exact hb
      · exact hb
    rcases List.mem_cons.mp hb0 with rfl | hb0
    · exact hOlen
    · rcases List.mem_cons.mp hb0 with rfl | hb0
      · rw [List.length_reverse]; exact hOlen
      · simp at hb0

theorem ratSqrt_zero : ratSqrt 0 = 0 := by
  simp [ratSqrt]

theorem ratSqrt_nonneg (x : ℚ) : 0 ≤ ratSqrt x := by
  unfold ratSqrt
  split
  · exact le_refl 0
  · positivity

theorem natSqrtIter_pos :
    ∀ (fuel n guess : ℕ), 1 ≤ n → 1 ≤ guess → 1 ≤ natSqrtIter fuel n guess := by
  intro fuel
  induction fuel with
  | zero => intro n guess _ hg; exact hg
  | succ f ih =>
    intro n guess hn hg
    simp only [natSqrtIter]
    split
    · apply ih n _ hn
      rcases Nat.eq_or_lt_of_le hg with h1 | h1
      · rw [← h1, Nat.div_one]
        omega
      · have h2 : 0 ≤ n / guess := Nat.zero_le _
        generalize n / guess = d
        omega
    · exact hg

theorem natSqrt_pos (n : ℕ) (hn : 1 ≤ n) : 1 ≤ natSqrt n := by
  unfold natSqrt
  split
  · exact hn
  · rename_i h
    exact natSqrtIter_pos n n (n / 2) hn (by omega)

theorem ratSqrt_pos (x : ℚ) (hx : 0 < x) : 0 < ratSqrt x := by
  unfold ratSqrt
  rw [if_neg (not_le.mpr hx)]
  apply div_pos
  · have h1 : 1 ≤ x.num.toNat := by
      have := Rat.num_pos.mpr hx
      omega
    have h2 : 1 ≤ x.den := x.pos
    have h4 : 1 ≤ natSqrt (x.num.toNat * x.den) :=
      natSqrt_pos _ (by calc 1 = 1 * 1 := by omega
                          _ ≤ x.num.toNat * x.den := Nat.mul_le_mul h1 h2)
    exact_mod_cast Nat.lt_of_lt_of_le Nat.zero_lt_one h4
  · exact_mod_cast x.pos

/-- C7: canonicalization is idempotent.  For a polygon `P` that is
already canonical (its vertices are a rotation of their angular sort
around the centroid), canonicalizing `P` against `P` itself as the
reference returns `P` unchanged, for any square-root oracle `sq` that
vanishes at `0`, is nonnegative, and is positive on positive inputs
(all true of the exact square root). -/
theorem claim_C7 (sq : ℚ → ℚ) (P : List Point)
    (hsq0 : sq 0 = 0) (hsqnn : ∀ x, 0 ≤ sq x) (hsqpos : ∀ x, 0 < x → 0 < sq x)
    (h3 : 3 ≤ P.length) (hcanon : ∃ k, P = (sortPolygonByAngle P).rotate k) :
    canonicalizePolygon sq P (some P) = P := by
  have hn3 : ¬ P.length < 3 := not_lt.mpr h3
  obtain ⟨k, hk⟩ := hcanon
  have hOperm : List.Perm (sortPolygonByAngle P) P := sortPolygonByAngle_perm P
  have hOlen : (sortPolygonByAngle P).length = P.length := hOperm.length_eq
  have hidem : sortPolygonByAngle (sortPolygonByAngle P) = sortPolygonByAngle P :=
    sortPolygonByAngle_idem P hn3
  have harea : polygonSignedArea (sortPolygonByAngle P) = polygonSignedArea P := by
    conv_rhs => rw [hk]
    rw [polygonSignedArea_rotate]
  simp only [canonicalizePolygon]
  rw [if_neg hn3, if_pos trivial, List.take_length]
  exact matchPolygonToReference_self sq hsq0 hsqnn hsqpos _ P hOlen hn3 hidem harea k hk

/-- Closed witness for C7: the canonical unit square (scaled by 10) is
returned unchanged by `canonicalizePolygon` against itself. -/
theorem claim_C7_witness :
    ratSqrt 0 = 0 ∧ 3 ≤ lpSquare.length ∧
    lpSquare = (sortPolygonByAngle lpSquare).rotate 0 ∧
    canonicalizePolygon ratSqrt lpSquare (some lpSquare) = lpSquare :=
  ⟨ratSqrt_zero, by decide, by with_unfolding_all decide,
    claim_C7 ratSqrt lpSquare ratSqrt_zero ratSqrt_nonneg ratSqrt_pos (by decide)
      ⟨0, by with_unfolding_all decide⟩⟩


-- --------------------------------------------------------------------
-- C6: hex-cell overlap handling
-- --------------------------------------------------------------------

/-- One cell-loop iteration either leaves the accepted-cell list
unchanged (the candidate was rejected) or appends exactly one cell that
passes the polygon validity check (the hex candidate if it survived the
validity/overlap test, else the quad fallback for non-head cells). -/
theorem hexCellStep_rendered (sq acosF acosDegF : ℚ → ℚ) (cfg : StackHexCfg)
    (trailOpacity clampedQuality : ℚ) (picked : List ℕ) (sections : List HexSection)
    (st : HexLoopState) (ci : ℕ) :
    (hexCellStep sq acosF acosDegF cfg trailOpacity clampedQuality picked sections st
        ci).rendered = st.rendered ∨
    ∃ c, (hexCellStep sq acosF acosDegF cfg trailOpacity clampedQuality picked sections st
        ci).rendered = st.rendered ++ [c] ∧ isValidTrailPolygon c = true := by
  delta hexCellStep
  lift_lets
  extract_lets s0 s1 rawMove rawD0 rawD baseVec baseDir0 b1 baseDir dA dB dFirst angleDeg
    perpDeviationDeg dDir nDir baseMid baseWidth curvature curvPressure speedPx slowPressure
    cellIndexFromHead headInfluenceCells headPressure detailNeed qualityCoarsen targetLen
    targetWidthScale smoothLen0 smoothWidth0 smoothLen smoothWidth handoffCenter handoffWidth
    halfW handoffL handoffR partR0 partL0 concavitySign concavityTarget concavityStep partR
    partL headQuad quadCell cellPts0 valid0 cellPts valid alphaCell accept
  dsimp only
  split
  · rename_i h
    right
    refine ⟨cellPts, rfl, ?_⟩
    have ha : accept = (valid && decide (0 < alphaCell)) := rfl
    rw [ha] at h
    rw [Bool.and_eq_true] at h
    obtain ⟨hv, _⟩ := h
    have hvd : valid = (if (!valid0 && !decide headQuad) = true
        then isValidTrailPolygon quadCell else valid0) := rfl
    rw [hvd] at hv
    have hcd : cellPts = (if (!valid0 && !decide headQuad) = true
        then quadCell else cellPts0) := rfl
    rw [hcd]
    by_cases hc : (!valid0 && !decide headQuad) = true
    · rw [if_pos hc] at hv ⊢
      exact hv
    · rw [if_neg hc] at hv ⊢
      rw [Bool.and_eq_true] at hv
      exact hv.1
  · left; rfl

/-- C6 (amended): in the directional hex-cell render path, every
iteration of the cell loop either rejects its candidate or accepts a
single cell that passes the polygon validity check, with candidates
that fail the validity/overlap test replaced by the quad variant
(non-head cells) or skipped (head cells); consequently every cell
accepted during a frame is a valid polygon.  The original claim's
further guarantee — that no two accepted cells satisfy the overlap
test at the end of the frame — does not hold (see the counterexample):
the overlap scan skips the most recently accepted cell and is not
re-run on quad fallbacks. -/
theorem claim_C6 (sq acosF acosDegF : ℚ → ℚ) (cfg : StackHexCfg)
    (sections : List HexSection) (trailOpacity clampedQuality : ℚ) (dyn : StackSizeState) :
    (((drawStackedHexTrail sq acosF acosDegF cfg sections trailOpacity clampedQuality
          dyn).cells).all fun c => isValidTrailPolygon c) = true ∧
    ∀ (picked : List ℕ) (st : HexLoopState) (ci : ℕ),
      (hexCellStep sq acosF acosDegF cfg trailOpacity clampedQuality picked sections st
          ci).rendered = st.rendered ∨
      ∃ c, (hexCellStep sq acosF acosDegF cfg trailOpacity clampedQuality picked sections st
          ci).rendered = st.rendered ++ [c] ∧ isValidTrailPolygon c = true := by
  constructor
  · have hfold : ∀ (picked : List ℕ) (L : List ℕ) (st : HexLoopState),
        (st.rendered.all fun c => isValidTrailPolygon c) = true →
        ((L.foldl (hexCellStep sq acosF acosDegF cfg trailOpacity clampedQuality picked
            sections) st).rendered.all fun c => isValidTrailPolygon c) = true := by
      intro picked L
      induction L with
      | nil => intro st h; exact h
      | cons a t ih =>
        intro st h
        rw [List.foldl_cons]
        apply ih
        rcases hexCellStep_rendered sq acosF acosDegF cfg trailOpacity clampedQuality picked
          sections st a with he | ⟨c, he, hc⟩
        · rw [he]; exact h
        · rw [he, List.all_append, h]
          simp [hc]
    simp only [drawStackedHexTrail]
    split
    · rfl
    · split
      · rfl
      · split
        · rfl
        · rw [apply_ite HexOut.cells]
          dsimp only
          rw [ite_self]
          apply hfold
          rfl
  · intro picked st ci
    exact hexCellStep_rendered sq acosF acosDegF cfg trailOpacity clampedQuality picked
      sections st ci

set_option maxRecDepth 20000 in
/-- Counterexample to the original C6: with the renderer enabled at its
default knobs, six aligned square cross-sections produce a frame in
which the first two accepted cells do satisfy the configured overlap
test — the second cell was never checked against the first, because the
overlap scan only runs once two cells are rendered and then skips the
most recent one. -/
theorem claim_C6_counterexample :
    1 < (drawStackedHexTrail ratSqrt hexAcos hexAcosDeg hexCfgOn hexSections (69 / 100) 1
        ⟨false, 0, 0⟩).cells.length ∧
    polygonsOverlap
      ((drawStackedHexTrail ratSqrt hexAcos hexAcosDeg hexCfgOn hexSections (69 / 100) 1
        ⟨false, 0, 0⟩).cells.getD 0 [])
      ((drawStackedHexTrail ratSqrt hexAcos hexAcosDeg hexCfgOn hexSections (69 / 100) 1
        ⟨false, 0, 0⟩).cells.getD 1 [])
      hexCfgOn.overlapEpsilonPx = true := by
  with_unfolding_all decide


-- --------------------------------------------------------------------
-- C8: corner controller convergence
-- --------------------------------------------------------------------

theorem critStep_spring (x0 tau dt : ℝ) (k : ℕ) (htau : dt < tau)
    (hx : 1/1000 ≤ |springX x0 (4/tau) dt k|) :
    CritDamped1D.step ⟨springX x0 (4/tau) dt k, springV x0 (4/tau) dt k, tau⟩ dt
      = (⟨springX x0 (4/tau) dt (k+1), springV x0 (4/tau) dt (k+1), tau⟩,
         if 1/100 ≤ |springX x0 (4/tau) dt (k+1)| then true else false) := by
  simp only [CritDamped1D.step]
  rw [if_neg (by push_neg; exact ⟨by linarith, by simpa using hx⟩)]
  have hexp : Real.exp (-(4/tau * (↑(k+1) : ℝ) * dt))
      = Real.exp (-(4/tau * (k : ℝ) * dt)) * Real.exp (-(4/tau) * dt) := by
    rw [← Real.exp_add]
    congr 1
    push_cast
    ring
  have hpos : (springX x0 (4/tau) dt k +
        (springX x0 (4/tau) dt k * (4/tau) + springV x0 (4/tau) dt k) * dt) *
        Real.exp (-(4/tau) * dt) = springX x0 (4/tau) dt (k+1) := by
    unfold springX springV
    rw [hexp]
    push_cast
    ring
  have hvel : Real.exp (-(4/tau) * dt) *
        (-springX x0 (4/tau) dt k * (4/tau) -
          (springX x0 (4/tau) dt k * (4/tau) + springV x0 (4/tau) dt k) * dt * (4/tau) +
          (springX x0 (4/tau) dt k * (4/tau) + springV x0 (4/tau) dt k))
        = springV x0 (4/tau) dt (k+1) := by
    unfold springX springV
    rw [hexp]
    push_cast
    ring
  rw [hpos, hvel]


theorem critStep_rest (p v tau dt : ℝ) (hp : |p| < 1/1000) :
    CritDamped1D.step ⟨p, v, tau⟩ dt = (⟨0, 0, tau⟩, false) := by
  simp only [CritDamped1D.step]
  rw [if_pos (Or.inr (by simpa using hp))]

theorem axisRun_cases (x0 tau dt : ℝ) (htau : dt < tau) (k : ℕ) :
    axisRun x0 0 tau dt k = (springX x0 (4/tau) dt k, springV x0 (4/tau) dt k)
      ∨ axisRun x0 0 tau dt k = (0, 0) := by
  induction k with
  | zero =>
    left
    simp [axisRun, springX, springV]
  | succ k ih =>
    rcases ih with h | h
    · by_cases hx : 1/1000 ≤ |springX x0 (4/tau) dt k|
      · left
        simp only [axisRun, h]
        rw [critStep_spring x0 tau dt k htau hx]
      · right
        simp only [axisRun, h]
        rw [critStep_rest _ _ _ _ (not_le.mp hx)]
    · right
      simp only [axisRun, h]
      rw [critStep_rest _ _ _ _ (by norm_num : |(0:ℝ)| < 1/1000)]

theorem axisRun_formula (x0 tau dt : ℝ) (htau : dt < tau) :
    ∀ k : ℕ, (∀ j, j < k → 1/1000 ≤ |springX x0 (4/tau) dt j|) →
      axisRun x0 0 tau dt k = (springX x0 (4/tau) dt k, springV x0 (4/tau) dt k) := by
  intro k
  induction k with
  | zero => intro _; simp [axisRun, springX, springV]
  | succ k ih =>
    intro hj
    have h := ih fun j hjk => hj j (hjk.trans (Nat.lt_succ_self k))
    simp only [axisRun, h]
    rw [critStep_spring x0 tau dt k htau (hj k (Nat.lt_succ_self k))]

theorem decay_le_one (t : ℝ) (ht : 0 ≤ t) : (1 + t) * Real.exp (-t) ≤ 1 := by
  have h := Real.add_one_le_exp t
  have hp := Real.exp_pos (-t)
  have hme : Real.exp t * Real.exp (-t) = 1 := by
    rw [← Real.exp_add]; simp
  nlinarith [hp.le]

theorem springX_abs_le (x0 om dt : ℝ) (hom : 0 ≤ om) (hdt : 0 ≤ dt) (k : ℕ) :
    |springX x0 om dt k| ≤ |x0| := by
  unfold springX
  have ht : 0 ≤ om * (k : ℝ) * dt := by positivity
  rw [abs_mul, abs_mul, abs_of_nonneg (by linarith : (0:ℝ) ≤ 1 + om * (k:ℝ) * dt),
    abs_of_nonneg (Real.exp_pos (-(om * (k:ℝ) * dt))).le]
  have hd := decay_le_one (om * (k:ℝ) * dt) ht
  nlinarith [abs_nonneg x0, Real.exp_pos (-(om * (k:ℝ) * dt))]

theorem axisRun_abs_le (x0 tau dt : ℝ) (hdt : 0 ≤ dt) (htau : dt < tau) (htau0 : 0 < tau)
    (k : ℕ) : |(axisRun x0 0 tau dt k).1| ≤ |x0| := by
  rcases axisRun_cases x0 tau dt htau k with h | h
  · rw [h]
    exact springX_abs_le x0 (4/tau) dt (by positivity) hdt k
  · rw [h]
    simpa using abs_nonneg x0

theorem axisFlag_imp (x0 tau dt : ℝ) (htau : dt < tau) (k : ℕ)
    (hf : (CritDamped1D.step ⟨(axisRun x0 0 tau dt k).1, (axisRun x0 0 tau dt k).2, tau⟩
        dt).2 = true) :
    1/100 ≤ |springX x0 (4/tau) dt (k+1)| := by
  rcases axisRun_cases x0 tau dt htau k with h | h
  · by_cases hx : 1/1000 ≤ |springX x0 (4/tau) dt k|
    · rw [h] at hf
      rw [critStep_spring x0 tau dt k htau hx] at hf
      by_contra hc
      rw [if_neg hc] at hf
      cases hf
    · rw [h] at hf
      rw [critStep_rest _ _ _ _ (not_le.mp hx)] at hf
      cases hf
  · rw [h] at hf
    rw [critStep_rest _ _ _ _ (by norm_num : |(0:ℝ)| < 1/1000)] at hf
    cases hf

theorem cornerUpdate_of_inv (s : CornerState) (cX cY w h rf tau dt : ℝ)
    (htauv : tau = max (1/100) (shortLength * rf))
    (hpd : ¬ s.pdx < -10000)
    (X V Y W : ℝ)
    (hcx : s.cx = (cX + s.relx * w) + X) (hvx : s.vx = V)
    (hcy : s.cy = (cY + s.rely * h) + Y) (hvy : s.vy = W)
    (hXb : |(CritDamped1D.step ⟨X, V, tau⟩ dt).1.pos| ≤ 8 * max w h)
    (hYb : |(CritDamped1D.step ⟨Y, W, tau⟩ dt).1.pos| ≤ 8 * max w h) :
    cornerUpdate s dt cX cY w h rf true 0
      = (⟨s.relx, s.rely,
          (cX + s.relx * w) + (CritDamped1D.step ⟨X, V, tau⟩ dt).1.pos,
          (cY + s.rely * h) + (CritDamped1D.step ⟨Y, W, tau⟩ dt).1.pos,
          (CritDamped1D.step ⟨X, V, tau⟩ dt).1.vel,
          (CritDamped1D.step ⟨Y, W, tau⟩ dt).1.vel,
          cX + s.relx * w, cY + s.rely * h⟩,
        (CritDamped1D.step ⟨X, V, tau⟩ dt).2 || (CritDamped1D.step ⟨Y, W, tau⟩ dt).2) := by
  simp only [cornerUpdate]
  rw [if_neg hpd]
  simp only [dynHardSnap, Bool.false_eq_true, false_and, if_false, if_true]
  rw [← htauv]
  have hX : s.cx - (cX + s.relx * w) = X := by rw [hcx]; ring
  have hY : s.cy - (cY + s.rely * h) = Y := by rw [hcy]; ring
  rw [hX, hY, hvx, hvy]
  have hms : maxTrailDistanceFactor * max w h = 8 * max w h := by
    simp [maxTrailDistanceFactor]
  rw [hms]
  obtain ⟨hX1, hX2⟩ := abs_le.mp hXb
  obtain ⟨hY1, hY2⟩ := abs_le.mp hYb
  rw [clamp_eq_self (by linarith) (by linarith), clamp_eq_self (by linarith) (by linarith)]

theorem cornerIter_decomp (c0 : CornerState) (cX cY w h rf tau dt : ℝ)
    (htauv : tau = max (1/100) (shortLength * rf))
    (hdt : 0 < dt) (htau : dt < tau)
    (hpdx : ¬ c0.pdx < -10000)
    (hvx : c0.vx = 0) (hvy : c0.vy = 0)
    (hdx : ¬ cX + c0.relx * w < -10000) (hdy : ¬ cY + c0.rely * h < -10000)
    (hxs : |c0.cx - (cX + c0.relx * w)| ≤ 8 * max w h)
    (hys : |c0.cy - (cY + c0.rely * h)| ≤ 8 * max w h) :
    ∀ k : ℕ,
      (cornerIter c0 dt cX cY w h rf true 0 k).1.relx = c0.relx ∧
      (cornerIter c0 dt cX cY w h rf true 0 k).1.rely = c0.rely ∧
      ¬ (cornerIter c0 dt cX cY w h rf true 0 k).1.pdx < -10000 ∧
      (cornerIter c0 dt cX cY w h rf true 0 k).1.cx
        = (cX + c0.relx * w) + (axisRun (c0.cx - (cX + c0.relx * w)) 0 tau dt k).1 ∧
      (cornerIter c0 dt cX cY w h rf true 0 k).1.vx
        = (axisRun (c0.cx - (cX + c0.relx * w)) 0 tau dt k).2 ∧
      (cornerIter c0 dt cX cY w h rf true 0 k).1.cy
        = (cY + c0.rely * h) + (axisRun (c0.cy - (cY + c0.rely * h)) 0 tau dt k).1 ∧
      (cornerIter c0 dt cX cY w h rf true 0 k).1.vy
        = (axisRun (c0.cy - (cY + c0.rely * h)) 0 tau dt k).2 := by
  have htau0 : 0 < tau := hdt.trans htau
  have hXb : ∀ k : ℕ, |(CritDamped1D.step ⟨(axisRun (c0.cx - (cX + c0.relx * w)) 0 tau dt k).1,
      (axisRun (c0.cx - (cX + c0.relx * w)) 0 tau dt k).2, tau⟩ dt).1.pos| ≤ 8 * max w h := by
    intro k
    have hb := axisRun_abs_le (c0.cx - (cX + c0.relx * w)) tau dt hdt.le htau htau0 (k+1)
    simp only [axisRun] at hb
    exact hb.trans hxs
  have hYb : ∀ k : ℕ, |(CritDamped1D.step ⟨(axisRun (c0.cy - (cY + c0.rely * h)) 0 tau dt k).1,
      (axisRun (c0.cy - (cY + c0.rely * h)) 0 tau dt k).2, tau⟩ dt).1.pos| ≤ 8 * max w h := by
    intro k
    have hb := axisRun_abs_le (c0.cy - (cY + c0.rely * h)) tau dt hdt.le htau htau0 (k+1)
    simp only [axisRun] at hb
    exact hb.trans hys
  intro k
  induction k with
  | zero =>
    exact ⟨rfl, rfl, hpdx, by simp [cornerIter, axisRun], by simp [cornerIter, axisRun, hvx],
      by simp [cornerIter, axisRun], by simp [cornerIter, axisRun, hvy]⟩
  | succ k ih =>
    obtain ⟨hrx, hry, hpd, hcx, hvx', hcy, hvy'⟩ := ih
    have hupd := cornerUpdate_of_inv (cornerIter c0 dt cX cY w h rf true 0 k).1 cX cY w h rf
      tau dt htauv hpd
      ((axisRun (c0.cx - (cX + c0.relx * w)) 0 tau dt k).1)
      ((axisRun (c0.cx - (cX + c0.relx * w)) 0 tau dt k).2)
      ((axisRun (c0.cy - (cY + c0.rely * h)) 0 tau dt k).1)
      ((axisRun (c0.cy - (cY + c0.rely * h)) 0 tau dt k).2)
      (by rw [hrx]; exact hcx) hvx' (by rw [hry]; exact hcy) hvy' (hXb k) (hYb k)
    refine ⟨?_, ?_, ?_, ?_, ?_, ?_, ?_⟩ <;>
      simp only [cornerIter, hupd, axisRun, hrx, hry] <;>
      first
        | rfl
        | exact hdx
        | ring

theorem cornerIter_flag (c0 : CornerState) (cX cY w h rf tau dt : ℝ)
    (htauv : tau = max (1/100) (shortLength * rf))
    (hdt : 0 < dt) (htau : dt < tau)
    (hpdx : ¬ c0.pdx < -10000)
    (hvx : c0.vx = 0) (hvy : c0.vy = 0)
    (hdx : ¬ cX + c0.relx * w < -10000) (hdy : ¬ cY + c0.rely * h < -10000)
    (hxs : |c0.cx - (cX + c0.relx * w)| ≤ 8 * max w h)
    (hys : |c0.cy - (cY + c0.rely * h)| ≤ 8 * max w h) (k : ℕ) :
    (cornerIter c0 dt cX cY w h rf true 0 (k+1)).2
      = ((CritDamped1D.step ⟨(axisRun (c0.cx - (cX + c0.relx * w)) 0 tau dt k).1,
            (axisRun (c0.cx - (cX + c0.relx * w)) 0 tau dt k).2, tau⟩ dt).2
        || (CritDamped1D.step ⟨(axisRun (c0.cy - (cY + c0.rely * h)) 0 tau dt k).1,
            (axisRun (c0.cy - (cY + c0.rely * h)) 0 tau dt k).2, tau⟩ dt).2) := by
  have htau0 : 0 < tau := hdt.trans htau
  obtain ⟨hrx, hry, hpd, hcx, hvx', hcy, hvy'⟩ :=
    cornerIter_decomp c0 cX cY w h rf tau dt htauv hdt htau hpdx hvx hvy hdx hdy hxs hys k
  have hXb : |(CritDamped1D.step ⟨(axisRun (c0.cx - (cX + c0.relx * w)) 0 tau dt k).1,
      (axisRun (c0.cx - (cX + c0.relx * w)) 0 tau dt k).2, tau⟩ dt).1.pos| ≤ 8 * max w h := by
    have hb := axisRun_abs_le (c0.cx - (cX + c0.relx * w)) tau dt hdt.le htau htau0 (k+1)
    simp only [axisRun] at hb
    exact hb.trans hxs
  have hYb : |(CritDamped1D.step ⟨(axisRun (c0.cy - (cY + c0.rely * h)) 0 tau dt k).1,
      (axisRun (c0.cy - (cY + c0.rely * h)) 0 tau dt k).2, tau⟩ dt).1.pos| ≤ 8 * max w h := by
    have hb := axisRun_abs_le (c0.cy - (cY + c0.rely * h)) tau dt hdt.le htau htau0 (k+1)
    simp only [axisRun] at hb
    exact hb.trans hys
  have hupd := cornerUpdate_of_inv (cornerIter c0 dt cX cY w h rf true 0 k).1 cX cY w h rf
    tau dt htauv hpd
    ((axisRun (c0.cx - (cX + c0.relx * w)) 0 tau dt k).1)
    ((axisRun (c0.cx - (cX + c0.relx * w)) 0 tau dt k).2)
    ((axisRun (c0.cy - (cY + c0.rely * h)) 0 tau dt k).1)
    ((axisRun (c0.cy - (cY + c0.rely * h)) 0 tau dt k).2)
    (by rw [hrx]; exact hcx) hvx' (by rw [hry]; exact hcy) hvy' hXb hYb
  simp only [cornerIter, hupd]

theorem spring_growth (u C : ℝ) (hu : 0 < u) (hC : 0 < C) (k0 : ℕ)
    (hbase : C * (1 + u * k0) < Real.exp (u * k0)) :
    ∀ k : ℕ, k0 ≤ k → C * (1 + u * k) < Real.exp (u * k) := by
  intro k hk
  induction k, hk using Nat.le_induction with
  | base => exact hbase
  | succ n hn ih =>
    have h1u : 1 + u ≤ Real.exp u := by linarith [Real.add_one_le_exp u]
    have hn0 : (0:ℝ) ≤ u * n := by positivity
    have hstep : C * (1 + u * (↑(n+1) : ℝ)) ≤ (C * (1 + u * n)) * (1 + u) := by
      push_cast
      nlinarith [mul_nonneg (mul_nonneg hC.le (mul_self_nonneg u))
        (show (0:ℝ) ≤ (n:ℝ) from Nat.cast_nonneg n)]
    have hmul : (C * (1 + u * n)) * (1 + u) < Real.exp (u * n) * Real.exp u := by
      apply mul_lt_mul ih h1u (by linarith) (Real.exp_pos _).le
    have hh : Real.exp (u * n) * Real.exp u = Real.exp (u * (↑(n+1) : ℝ)) := by
      rw [← Real.exp_add]
      congr 1
      push_cast
      ring
    calc C * (1 + u * (↑(n+1) : ℝ)) ≤ (C * (1 + u * n)) * (1 + u) := hstep
      _ < Real.exp (u * n) * Real.exp u := hmul
      _ = Real.exp (u * (↑(n+1) : ℝ)) := hh

theorem grow_u23 : ∀ k : ℕ, 20 ≤ k → (14400:ℝ) * (1 + (2/3) * k) < Real.exp ((2/3) * k) := by
  apply spring_growth (2/3) 14400 (by norm_num) (by norm_num) 20
  have h1 : (206400:ℝ) < 2.7182818283 ^ 13 := by norm_num
  have h2 : (2.7182818283:ℝ) ^ 13 ≤ (Real.exp 1) ^ 13 :=
    pow_le_pow_left (by norm_num) Real.exp_one_gt_d9.le 13
  have h3 : (Real.exp 1) ^ 13 = Real.exp 13 := by
    rw [← Real.exp_nat_mul]
    norm_num
  have h4 : Real.exp 13 ≤ Real.exp ((2/3) * (20:ℕ)) :=
    Real.exp_le_exp.mpr (by norm_num)
  have lhs : (14400:ℝ) * (1 + (2/3) * (20:ℕ)) = 206400 := by norm_num
  rw [lhs]
  linarith

theorem grow_u43 : ∀ k : ℕ, 20 ≤ k → (14400:ℝ) * (1 + (4/3) * k) < Real.exp ((4/3) * k) := by
  apply spring_growth (4/3) 14400 (by norm_num) (by norm_num) 20
  have h1 : (398400:ℝ) < 2.7182818283 ^ 13 := by norm_num
  have h2 : (2.7182818283:ℝ) ^ 13 ≤ (Real.exp 1) ^ 13 :=
    pow_le_pow_left (by norm_num) Real.exp_one_gt_d9.le 13
  have h3 : (Real.exp 1) ^ 13 = Real.exp 13 := by
    rw [← Real.exp_nat_mul]
    norm_num
  have h4 : Real.exp 13 ≤ Real.exp ((4/3) * (20:ℕ)) :=
    Real.exp_le_exp.mpr (by norm_num)
  have lhs : (14400:ℝ) * (1 + (4/3) * (20:ℕ)) = 398400 := by norm_num
  rw [lhs]
  linarith

theorem grow_u83 : ∀ k : ℕ, 20 ≤ k → (14400:ℝ) * (1 + (8/3) * k) < Real.exp ((8/3) * k) := by
  apply spring_growth (8/3) 14400 (by norm_num) (by norm_num) 20
  have h1 : (782400:ℝ) < 2.7182818283 ^ 14 := by norm_num
  have h2 : (2.7182818283:ℝ) ^ 14 ≤ (Real.exp 1) ^ 14 :=
    pow_le_pow_left (by norm_num) Real.exp_one_gt_d9.le 14
  have h3 : (Real.exp 1) ^ 14 = Real.exp 14 := by
    rw [← Real.exp_nat_mul]
    norm_num
  have h4 : Real.exp 14 ≤ Real.exp ((8/3) * (20:ℕ)) :=
    Real.exp_le_exp.mpr (by norm_num)
  have lhs : (14400:ℝ) * (1 + (8/3) * (20:ℕ)) = 782400 := by norm_num
  rw [lhs]
  linarith

theorem springX_lt (x0 om dt : ℝ) (hom : 0 < om) (hdt : 0 < dt) (hx0 : |x0| ≤ 144) (k : ℕ)
    (hgrow : (14400:ℝ) * (1 + (om * dt) * k) < Real.exp ((om * dt) * k)) :
    |springX x0 om dt k| < 1/100 := by
  unfold springX
  have ht : 0 ≤ om * (k:ℝ) * dt := by positivity
  rw [abs_mul, abs_mul, abs_of_nonneg (by linarith : (0:ℝ) ≤ 1 + om * (k:ℝ) * dt),
    abs_of_nonneg (Real.exp_pos (-(om * (k:ℝ) * dt))).le]
  have hgrow' : (14400:ℝ) * (1 + om * (k:ℝ) * dt) < Real.exp (om * (k:ℝ) * dt) := by
    rw [show ((om * dt) * (k:ℝ)) = om * (k:ℝ) * dt from by ring] at hgrow
    exact hgrow
  have hE := Real.exp_pos (om * (k:ℝ) * dt)
  rw [Real.exp_neg, show |x0| * (1 + om * (k:ℝ) * dt) * (Real.exp (om * (k:ℝ) * dt))⁻¹
    = (|x0| * (1 + om * (k:ℝ) * dt)) / Real.exp (om * (k:ℝ) * dt) from by ring,
    div_lt_iff hE]
  nlinarith [abs_nonneg x0]

theorem corner_conv (c0 : CornerState) (cX cY w h rf tau : ℝ)
    (htauv : tau = max (1/100) (shortLength * rf))
    (htau : (1/60 : ℝ) < tau)
    (hgrow : ∀ j : ℕ, 20 ≤ j →
      (14400:ℝ) * (1 + ((4/tau) * (1/60)) * j) < Real.exp (((4/tau) * (1/60)) * j))
    (hpdx : ¬ c0.pdx < -10000)
    (hvx : c0.vx = 0) (hvy : c0.vy = 0)
    (hdx : ¬ cX + c0.relx * w < -10000) (hdy : ¬ cY + c0.rely * h < -10000)
    (hx144 : |c0.cx - (cX + c0.relx * w)| ≤ 144)
    (hy144 : |c0.cy - (cY + c0.rely * h)| ≤ 144)
    (hxs : |c0.cx - (cX + c0.relx * w)| ≤ 8 * max w h)
    (hys : |c0.cy - (cY + c0.rely * h)| ≤ 8 * max w h)
    (k : ℕ) (hk : 20 ≤ k) :
    |(cornerIter c0 (1/60) cX cY w h rf true 0 k).1.cx - (cX + c0.relx * w)| < 1/100 ∧
    |(cornerIter c0 (1/60) cX cY w h rf true 0 k).1.cy - (cY + c0.rely * h)| < 1/100 ∧
    (cornerIter c0 (1/60) cX cY w h rf true 0 k).2 = false := by
  have hdt : (0:ℝ) < 1/60 := by norm_num
  have htau0 : (0:ℝ) < tau := lt_trans hdt htau
  have hom : (0:ℝ) < 4/tau := by positivity
  obtain ⟨hrx, hry, hpd, hcx, hvx', hcy, hvy'⟩ :=
    cornerIter_decomp c0 cX cY w h rf tau (1/60) htauv hdt htau hpdx hvx hvy hdx hdy hxs hys k
  have hbx : ∀ j : ℕ, 20 ≤ j →
      |(axisRun (c0.cx - (cX + c0.relx * w)) 0 tau (1/60) j).1| < 1/100 := by
    intro j hj
    rcases axisRun_cases (c0.cx - (cX + c0.relx * w)) tau (1/60) htau j with hA | hA
    · rw [hA]
      exact springX_lt _ (4/tau) (1/60) hom hdt hx144 j (hgrow j hj)
    · rw [hA]
      norm_num
  have hby : ∀ j : ℕ, 20 ≤ j →
      |(axisRun (c0.cy - (cY + c0.rely * h)) 0 tau (1/60) j).1| < 1/100 := by
    intro j hj
    rcases axisRun_cases (c0.cy - (cY + c0.rely * h)) tau (1/60) htau j with hA | hA
    · rw [hA]
      exact springX_lt _ (4/tau) (1/60) hom hdt hy144 j (hgrow j hj)
    · rw [hA]
      norm_num
  refine ⟨?_, ?_, ?_⟩
  · rw [show (cornerIter c0 (1/60) cX cY w h rf true 0 k).1.cx - (cX + c0.relx * w)
        = (axisRun (c0.cx - (cX + c0.relx * w)) 0 tau (1/60) k).1 from by rw [hcx]; ring]
    exact hbx k hk
  · rw [show (cornerIter c0 (1/60) cX cY w h rf true 0 k).1.cy - (cY + c0.rely * h)
        = (axisRun (c0.cy - (cY + c0.rely * h)) 0 tau (1/60) k).1 from by rw [hcy]; ring]
    exact hby k hk
  · obtain ⟨j, rfl⟩ : ∃ j, k = j + 1 := ⟨k - 1, by omega⟩
    have hflag := cornerIter_flag c0 cX cY w h rf tau (1/60) htauv hdt htau hpdx hvx hvy
      hdx hdy hxs hys j
    have hxf : (CritDamped1D.step ⟨(axisRun (c0.cx - (cX + c0.relx * w)) 0 tau (1/60) j).1,
        (axisRun (c0.cx - (cX + c0.relx * w)) 0 tau (1/60) j).2, tau⟩ (1/60)).2 = false := by
      cases hb : (CritDamped1D.step ⟨(axisRun (c0.cx - (cX + c0.relx * w)) 0 tau (1/60) j).1,
          (axisRun (c0.cx - (cX + c0.relx * w)) 0 tau (1/60) j).2, tau⟩ (1/60)).2 with
      | false => rfl
      | true =>
        exfalso
        have himp := axisFlag_imp _ tau (1/60) htau j hb
        have hlt := springX_lt (c0.cx - (cX + c0.relx * w)) (4/tau) (1/60) hom hdt hx144
          (j+1) (hgrow (j+1) (by omega))
        linarith
    have hyf : (CritDamped1D.step ⟨(axisRun (c0.cy - (cY + c0.rely * h)) 0 tau (1/60) j).1,
        (axisRun (c0.cy - (cY + c0.rely * h)) 0 tau (1/60) j).2, tau⟩ (1/60)).2 = false := by
      cases hb : (CritDamped1D.step ⟨(axisRun (c0.cy - (cY + c0.rely * h)) 0 tau (1/60) j).1,
          (axisRun (c0.cy - (cY + c0.rely * h)) 0 tau (1/60) j).2, tau⟩ (1/60)).2 with
      | false => rfl
      | true =>
        exfalso
        have himp := axisFlag_imp _ tau (1/60) htau j hb
        have hlt := springX_lt (c0.cy - (cY + c0.rely * h)) (4/tau) (1/60) hom hdt hy144
          (j+1) (hgrow (j+1) (by omega))
        linarith
    rw [hflag, hxf, hyf]
    rfl

/-- C8 (amended): at the 60 fps tick (`dt = 1/60`), for a corner with
the short animation base, any configured rank factor, zero initial
spring velocities, a previously observed destination whose coordinates
stay above `-10000`, and an initial offset of at most 144 px on each
axis and within the `8·max(w,h)` stretch box, after 20 or more ticks
with a stationary target the spring offset magnitude on each axis is
below 0.01 and the returned moving flag is false.  (The original
claim's 10 ticks are not enough: see the counterexample, where the
offset after 10 ticks is still about 0.98 px.) -/
theorem claim_C8 (c0 : CornerState) (cX cY w h rankFactor : ℝ)
    (hrf : rankFactor ∈ rankFactors)
    (hpdx : ¬ c0.pdx < -10000)
    (hvx : c0.vx = 0) (hvy : c0.vy = 0)
    (hdx : ¬ cX + c0.relx * w < -10000) (hdy : ¬ cY + c0.rely * h < -10000)
    (hx144 : |c0.cx - (cX + c0.relx * w)| ≤ 144)
    (hy144 : |c0.cy - (cY + c0.rely * h)| ≤ 144)
    (hxs : |c0.cx - (cX + c0.relx * w)| ≤ 8 * max w h)
    (hys : |c0.cy - (cY + c0.rely * h)| ≤ 8 * max w h)
    (k : ℕ) (hk : 20 ≤ k) :
    |(cornerIter c0 (1/60) cX cY w h rankFactor true 0 k).1.cx - (cX + c0.relx * w)| < 1/100 ∧
    |(cornerIter c0 (1/60) cX cY w h rankFactor true 0 k).1.cy - (cY + c0.rely * h)| < 1/100 ∧
    (cornerIter c0 (1/60) cX cY w h rankFactor true 0 k).2 = false := by
  have hsl : shortLength = (1/8 : ℝ) := rfl
  simp only [rankFactors, List.mem_cons, List.not_mem_nil, or_false] at hrf
  rcases hrf with rfl | rfl | rfl | rfl
  · refine corner_conv c0 cX cY w h _ (1/10) ?_ (by norm_num) ?_ hpdx hvx hvy hdx hdy
      hx144 hy144 hxs hys k hk
    · rw [hsl, show ((1/8 : ℝ) * (4/5)) = 1/10 from by norm_num,
        max_eq_right (by norm_num : (1/100:ℝ) ≤ 1/10)]
    · intro j hj
      rw [show ((4/(1/10:ℝ)) * (1/60)) = 2/3 from by norm_num]
      exact grow_u23 j hj
  · refine corner_conv c0 cX cY w h _ (1/20) ?_ (by norm_num) ?_ hpdx hvx hvy hdx hdy
      hx144 hy144 hxs hys k hk
    · rw [hsl, show ((1/8 : ℝ) * (2/5)) = 1/20 from by norm_num,
        max_eq_right (by norm_num : (1/100:ℝ) ≤ 1/20)]
    · intro j hj
      rw [show ((4/(1/20:ℝ)) * (1/60)) = 4/3 from by norm_num]
      exact grow_u43 j hj
  · refine corner_conv c0 cX cY w h _ (1/20) ?_ (by norm_num) ?_ hpdx hvx hvy hdx hdy
      hx144 hy144 hxs hys k hk
    · rw [hsl, show ((1/8 : ℝ) * (2/5)) = 1/20 from by norm_num,
        max_eq_right (by norm_num : (1/100:ℝ) ≤ 1/20)]
    · intro j hj
      rw [show ((4/(1/20:ℝ)) * (1/60)) = 4/3 from by norm_num]
      exact grow_u43 j hj
  · refine corner_conv c0 cX cY w h _ (1/40) ?_ (by norm_num) ?_ hpdx hvx hvy hdx hdy
      hx144 hy144 hxs hys k hk
    · rw [hsl, show ((1/8 : ℝ) * (1/5)) = 1/40 from by norm_num,
        max_eq_right (by norm_num : (1/100:ℝ) ≤ 1/40)]
    · intro j hj
      rw [show ((4/(1/40:ℝ)) * (1/60)) = 8/3 from by norm_num]
      exact grow_u83 j hj

theorem cex_lb (j : ℕ) (hj : j ≤ 9) : (1/1000 : ℝ) ≤ |springX 100 40 (1/60) j| := by
  unfold springX
  have hjr : (j:ℝ) ≤ 9 := by exact_mod_cast hj
  have ht0 : (0:ℝ) ≤ 40 * (j:ℝ) * (1/60) := by positivity
  have ht6 : (40:ℝ) * (j:ℝ) * (1/60) ≤ 6 := by linarith
  have hE : Real.exp (-6) ≤ Real.exp (-(40 * (j:ℝ) * (1/60))) :=
    Real.exp_le_exp.mpr (by linarith)
  have h6 : Real.exp 6 ≤ 404 := by
    have h2 : (Real.exp 1) ^ 6 ≤ (2.7182818286:ℝ) ^ 6 :=
      pow_le_pow_left (Real.exp_pos 1).le Real.exp_one_lt_d9.le 6
    have h3 : (Real.exp 1) ^ 6 = Real.exp 6 := by
      rw [← Real.exp_nat_mul]
      norm_num
    have h4 : (2.7182818286:ℝ) ^ 6 ≤ 404 := by norm_num
    linarith
  have hE6 : (1/404 : ℝ) ≤ Real.exp (-6) := by
    rw [Real.exp_neg, show (1/404:ℝ) = (404:ℝ)⁻¹ from by norm_num]
    exact inv_le_inv_of_le (Real.exp_pos 6) h6
  rw [abs_of_nonneg (by positivity)]
  nlinarith [mul_nonneg ht0 (Real.exp_pos (-(40 * (j:ℝ) * (1/60)))).le]

theorem cex_lb10 : (1/100 : ℝ) ≤ |springX 100 40 (1/60) 10| := by
  unfold springX
  rw [abs_of_nonneg (by positivity),
    show ((40:ℝ) * ((10:ℕ):ℝ) * (1/60)) = 20/3 from by push_cast; ring_nf]
  have h7 : Real.exp (20/3) ≤ 1097 := by
    have h2 : (Real.exp 1) ^ 7 ≤ (2.7182818286:ℝ) ^ 7 :=
      pow_le_pow_left (Real.exp_pos 1).le Real.exp_one_lt_d9.le 7
    have h3 : (Real.exp 1) ^ 7 = Real.exp 7 := by
      rw [← Real.exp_nat_mul]
      norm_num
    have h4 : (2.7182818286:ℝ) ^ 7 ≤ 1097 := by norm_num
    have h5 : Real.exp (20/3) ≤ Real.exp 7 := Real.exp_le_exp.mpr (by norm_num)
    linarith
  have hp := Real.exp_pos (20/3)
  rw [Real.exp_neg, show (100:ℝ) * (1 + 20/3) * (Real.exp (20/3))⁻¹
    = (2300/3) / Real.exp (20/3) from by ring, le_div_iff hp]
  linarith

/-- Counterexample to the original C8: a corner 100 px from its
stationary destination with rank factor `4/5` (time constant 0.1 s)
still has an offset of at least 0.01 px after 10 ticks at 60 fps, and
its moving flag is still `true`. -/
theorem claim_C8_counterexample :
    (1/100 : ℝ) ≤ |(cornerIter cexCorner (1/60) 4 9 8 18 (4/5) true 0 10).1.cx
        - ((4:ℝ) + (-1/2) * 8)| ∧
    (cornerIter cexCorner (1/60) 4 9 8 18 (4/5) true 0 10).2 = true := by
  have hsl : shortLength = (1/8:ℝ) := rfl
  have htauv : (1/10:ℝ) = max (1/100) (shortLength * (4/5)) := by
    rw [hsl, show ((1/8 : ℝ) * (4/5)) = 1/10 from by norm_num,
      max_eq_right (by norm_num : (1/100:ℝ) ≤ 1/10)]
  have hdt : (0:ℝ) < 1/60 := by norm_num
  have htau : (1/60:ℝ) < 1/10 := by norm_num
  have hmax : max (8:ℝ) 18 = 18 := max_eq_right (by norm_num)
  have hx0 : cexCorner.cx - ((4:ℝ) + cexCorner.relx * 8) = 100 := by norm_num [cexCorner]
  have hy0 : cexCorner.cy - ((9:ℝ) + cexCorner.rely * 18) = 0 := by norm_num [cexCorner]
  have h40 : (4/(1/10):ℝ) = 40 := by norm_num
  have hlow : ∀ j, j < 10 → (1/1000 : ℝ) ≤ |springX 100 (4/(1/10)) (1/60) j| := by
    intro j hjlt
    rw [h40]
    exact cex_lb j (by omega)
  have hform := axisRun_formula 100 (1/10) (1/60) htau 10 fun j hjlt => hlow j hjlt
  have hform9 := axisRun_formula 100 (1/10) (1/60) htau 9 fun j hjlt => hlow j (by omega)
  obtain ⟨hrx, hry, hpd, hcx, hvx', hcy, hvy'⟩ :=
    cornerIter_decomp cexCorner 4 9 8 18 (4/5) (1/10) (1/60) htauv hdt htau
      (by norm_num [cexCorner]) (by norm_num [cexCorner]) (by norm_num [cexCorner])
      (by norm_num [cexCorner]) (by norm_num [cexCorner])
      (by rw [hx0, hmax]; norm_num) (by rw [hy0, hmax]; norm_num) 10
  constructor
  · rw [show ((4:ℝ) + (-1/2) * 8) = 4 + cexCorner.relx * 8 from by norm_num [cexCorner]]
    rw [show (cornerIter cexCorner (1/60) 4 9 8 18 (4/5) true 0 10).1.cx
        - ((4:ℝ) + cexCorner.relx * 8)
        = (axisRun (cexCorner.cx - ((4:ℝ) + cexCorner.relx * 8)) 0 (1/10) (1/60) 10).1
      from by rw [hcx]; ring]
    rw [hx0, hform]
    rw [show (springX 100 (4/(1/10)) (1/60) 10, springV 100 (4/(1/10)) (1/60) 10).1
        = springX 100 (4/(1/10)) (1/60) 10 from rfl, h40]
    exact cex_lb10
  · have hflag := cornerIter_flag cexCorner 4 9 8 18 (4/5) (1/10) (1/60) htauv hdt htau
      (by norm_num [cexCorner]) (by norm_num [cexCorner]) (by norm_num [cexCorner])
      (by norm_num [cexCorner]) (by norm_num [cexCorner])
      (by rw [hx0, hmax]; norm_num) (by rw [hy0, hmax]; norm_num) 9
    rw [hx0] at hflag
    rw [hform9] at hflag
    have hstep := critStep_spring 100 (1/10) (1/60) 9 htau (by rw [h40]; exact cex_lb 9 (by norm_num))
    rw [show ((springX 100 (4/(1/10)) (1/60) 9, springV 100 (4/(1/10)) (1/60) 9).1)
        = springX 100 (4/(1/10)) (1/60) 9 from rfl,
      show ((springX 100 (4/(1/10)) (1/60) 9, springV 100 (4/(1/10)) (1/60) 9).2)
        = springV 100 (4/(1/10)) (1/60) 9 from rfl, hstep] at hflag
    rw [hflag]
    rw [if_pos (by rw [h40]; exact cex_lb10)]
    rfl


/-- Closed witness for C8: the 100 px corner with rank factor `4/5`
satisfies the hypotheses, and after 20 ticks both offsets are below
0.01 with the moving flag `false`. -/
theorem claim_C8_witness :
    (4/5 : ℝ) ∈ rankFactors ∧
    |cexCorner.cx - ((4:ℝ) + cexCorner.relx * 8)| ≤ 144 ∧
    (|(cornerIter cexCorner (1/60) 4 9 8 18 (4/5) true 0 20).1.cx
        - ((4:ℝ) + cexCorner.relx * 8)| < 1/100 ∧
      |(cornerIter cexCorner (1/60) 4 9 8 18 (4/5) true 0 20).1.cy
        - ((9:ℝ) + cexCorner.rely * 18)| < 1/100 ∧
      (cornerIter cexCorner (1/60) 4 9 8 18 (4/5) true 0 20).2 = false) :=
  ⟨by simp [rankFactors], by norm_num [cexCorner],
    claim_C8 cexCorner 4 9 8 18 (4/5) (by simp [rankFactors])
      (by norm_num [cexCorner]) (by norm_num [cexCorner]) (by norm_num [cexCorner])
      (by norm_num [cexCorner]) (by norm_num [cexCorner])
      (by norm_num [cexCorner]) (by norm_num [cexCorner])
      (by rw [show cexCorner.cx - ((4:ℝ) + cexCorner.relx * 8) = 100 from by norm_num [cexCorner],
            show max (8:ℝ) 18 = 18 from max_eq_right (by norm_num)]
          norm_num)
      (by rw [show cexCorner.cy - ((9:ℝ) + cexCorner.rely * 18) = 0 from by norm_num [cexCorner],
            show max (8:ℝ) 18 = 18 from max_eq_right (by norm_num)]
          norm_num)
      20 (by norm_num)⟩

end Velcursor
